import Mathlib

/-!
Verification of the After Patmos claim-authorization core.

The contract `AfterPatmosClaimer` (V3, the bitmap/nonce version inlined in
`contracts/test/AfterPatmosClaimer.t.sol`, lines 645-1162) is embedded as a
pure state-transition system: uint256 values become `Nat`, with an explicit
`% 2 ^ 256` wherever the source can overflow — the nonce increment sits in
an `unchecked` block and wraps, so the model wraps it too; the bitmap
operations (or, and, xor with the 256-bit mask) never leave the 256-bit
range when their inputs are in it, so they need no reduction.  Mappings
become functions, reverts become `Except` errors, and the ERC721
collection is a partial ownership map (`none` models a nonexistent token,
whose `ownerOf` reverts).  ECDSA over packed messages is idealized as a
pair (signing key, signed message) with recovery succeeding exactly on the
signed message: this models collision-resistant hashing plus unforgeable
signatures, which is the standard assumption the contract's check rests on.

The backend service (`server.js`, kept in `src/unnamed/part_007`) is
embedded as pure functions over the guardian-failure map, with the external
evaluator, the chain views and the relay submission passed in as oracle
parameters, mirroring the `await` points of the route handler.
-/

namespace AfterPatmos

/-- Address = uint160 modelled as `Nat`; `0` is the zero address. -/
abbrev Address := Nat

/-- Messages hashed and signed in the system.  The contract's `claimNFT`
verifies `keccak256(abi.encodePacked(msg.sender, tokenId, observation, currentNonce))`
(four fields); the backend's `generateClaimSignature` hashes
`solidityPackedKeccak256(['address','uint256','string'], ...)` (three fields,
no nonce).  The two encodings are injective and disjoint, which the inductive
captures with two constructors. -/
inductive Msg where
  | withNonce (addr tokenId : Nat) (obs : String) (nonce : Nat)
  | noNonce (addr tokenId : Nat) (obs : String)
deriving DecidableEq, Repr

/-- Idealized ECDSA signature: the key that produced it and the message it
signed.  `ecrecover` on a different message yields (with overwhelming
probability) a key different from the trusted signer; the idealization makes
that exact. -/
structure Sig where
  key : Nat
  msg : Msg
deriving DecidableEq, Repr

/-- Signature check as the contract performs it: recover and compare with
the expected signer.  Valid iff the signature is by `expected` over exactly
the message `m`. -/
def sigValid (sig : Sig) (m : Msg) (expected : Nat) : Bool :=
  sig.msg == m && sig.key == expected

/-- Custom errors of `AfterPatmosClaimer` plus the ERC721/Ownable reverts
that its external calls can surface. -/
inductive CErr where
  | AlreadyClaimed
  | InvalidSignature
  | TokenNotAvailable
  | ObservationTooShort
  | ObservationTooLong
  | InvalidTokenId
  | OnlySignerAllowed
  | NotTokenOwner
  | ZeroAddress
  | OwnableUnauthorized
  | NonexistentToken
  | TransferError
deriving DecidableEq, Repr

/-- One `NFTClaimed(claimer, tokenId, observation, timestamp)` event. -/
structure ClaimEvent where
  claimer : Nat
  tokenId : Nat
  observation : String
  timestamp : Nat
deriving DecidableEq, Repr

/-- Observable effects of a transaction, in execution order (used to state
ordering properties such as nonce-increment-before-transfer). -/
inductive Effect where
  | nonceSet (addr n : Nat)
  | hasClaimedSet (addr : Nat) (b : Bool)
  | claimedBitSet (tokenId : Nat)
  | depositedBitSet (tokenId : Nat) (b : Bool)
  | nftTransfer (src dst tokenId : Nat)
  | emitClaimed (claimer tokenId : Nat) (obs : String) (t : Nat)
  | emitDeposited (tokenId t : Nat)
  | emitWithdrawn (tokenId toAddr : Nat)
deriving DecidableEq, Repr

/-- Combined state: the claimer contract's storage, the ERC721 ownership
map it reads, and the emitted event log. -/
structure World where
  signer : Nat
  contractOwner : Nat
  hasClaimed : Nat → Bool
  nonces : Nat → Nat
  claimedBitmapLow : Nat
  depositedBitmapLow : Nat
  owners : Nat → Option Nat
  self : Nat
  events : List ClaimEvent

/-- All-ones 256-bit word, used for Solidity's bitwise-not. -/
def MASK : Nat := 2 ^ 256 - 1

/-- Source `_isTokenClaimedCached`: out-of-range ids read as claimed. -/
def isTokenClaimedCached (bitmap tokenId : Nat) : Bool :=
  if tokenId == 0 || tokenId > 100 then true
  else (bitmap &&& (1 <<< (tokenId - 1))) != 0

/-- Source `_isTokenDepositedCached`: out-of-range ids read as not deposited. -/
def isTokenDepositedCached (bitmap tokenId : Nat) : Bool :=
  if tokenId == 0 || tokenId > 100 then false
  else (bitmap &&& (1 <<< (tokenId - 1))) != 0

/-- Source `_setTokenClaimed` without its range guard (every call site has
already established `1 ≤ tokenId ≤ 100` through an availability check). -/
def setTokenClaimedBit (bitmap tokenId : Nat) : Nat :=
  bitmap ||| (1 <<< (tokenId - 1))

/-- Source `_setTokenDeposited` without its range guard; clearing uses the
256-bit complement `~(1 << bitIndex)`. -/
def setTokenDepositedBit (bitmap tokenId : Nat) (deposited : Bool) : Nat :=
  if deposited then bitmap ||| (1 <<< (tokenId - 1))
  else bitmap &&& (MASK ^^^ (1 <<< (tokenId - 1)))

/-- Source `claimNFT` (direct path).  Guard order, state-write order and the
transfer/emit order follow the source line by line. -/
def claimNFT (w : World) (sender tokenId : Nat) (obs : String) (sig : Sig)
    (time : Nat) : Except CErr (World × List Effect) :=
  if w.hasClaimed sender then .error .AlreadyClaimed
  else
    let obsLength := obs.utf8ByteSize
    if obsLength < 1 then .error .ObservationTooShort
    else if obsLength > 250 then .error .ObservationTooLong
    else
      let claimedBitmap := w.claimedBitmapLow
      let depositedBitmap := w.depositedBitmapLow
      if isTokenClaimedCached claimedBitmap tokenId
          || !(isTokenDepositedCached depositedBitmap tokenId) then
        .error .TokenNotAvailable
      else
        match w.owners tokenId with
        | none => .error .NonexistentToken
        | some o =>
          if o != w.self then .error .TokenNotAvailable
          else
            let currentNonce := w.nonces sender
            if !(sigValid sig (.withNonce sender tokenId obs currentNonce) w.signer) then
              .error .InvalidSignature
            else
              -- the source increments inside `unchecked`, so it wraps mod 2^256
              let w' : World :=
                { w with
                  nonces := fun a =>
                    if a = sender then (currentNonce + 1) % 2 ^ 256 else w.nonces a
                  hasClaimed := fun a => if a = sender then true else w.hasClaimed a
                  claimedBitmapLow := setTokenClaimedBit claimedBitmap tokenId
                  owners := fun t => if t = tokenId then some sender else w.owners t
                  events := w.events ++ [⟨sender, tokenId, obs, time⟩] }
              .ok (w', [.nonceSet sender ((currentNonce + 1) % 2 ^ 256),
                        .hasClaimedSet sender true,
                        .claimedBitSet tokenId,
                        .nftTransfer w.self sender tokenId,
                        .emitClaimed sender tokenId obs time])

/-- Source `relayClaimNFT` (gasless path): signer-only, no nonce involved. -/
def relayClaimNFT (w : World) (sender recipient tokenId : Nat) (obs : String)
    (time : Nat) : Except CErr (World × List Effect) :=
  if sender != w.signer then .error .OnlySignerAllowed
  else if w.hasClaimed recipient then .error .AlreadyClaimed
  else
    let obsLength := obs.utf8ByteSize
    if obsLength < 1 then .error .ObservationTooShort
    else if obsLength > 250 then .error .ObservationTooLong
    else
      let claimedBitmap := w.claimedBitmapLow
      let depositedBitmap := w.depositedBitmapLow
      if isTokenClaimedCached claimedBitmap tokenId
          || !(isTokenDepositedCached depositedBitmap tokenId) then
        .error .TokenNotAvailable
      else
        match w.owners tokenId with
        | none => .error .NonexistentToken
        | some o =>
          if o != w.self then .error .TokenNotAvailable
          else
            let w' : World :=
              { w with
                hasClaimed := fun a => if a = recipient then true else w.hasClaimed a
                claimedBitmapLow := setTokenClaimedBit claimedBitmap tokenId
                owners := fun t => if t = tokenId then some recipient else w.owners t
                events := w.events ++ [⟨recipient, tokenId, obs, time⟩] }
            .ok (w', [.hasClaimedSet recipient true,
                      .claimedBitSet tokenId,
                      .nftTransfer w.self recipient tokenId,
                      .emitClaimed recipient tokenId obs time])

/-- Source `addObservation`: ownership check, length check, event emission;
no storage write and no duplicate check. -/
def addObservation (w : World) (sender tokenId : Nat) (obs : String)
    (time : Nat) : Except CErr (World × List Effect) :=
  match w.owners tokenId with
  | none => .error .NonexistentToken
  | some o =>
    if o != sender then .error .NotTokenOwner
    else
      let obsLength := obs.utf8ByteSize
      if obsLength < 1 then .error .ObservationTooShort
      else if obsLength > 250 then .error .ObservationTooLong
      else
        .ok ({ w with events := w.events ++ [⟨sender, tokenId, obs, time⟩] },
             [.emitClaimed sender tokenId obs time])

/-- Source `relayAddObservation`: signer-only variant of `addObservation`. -/
def relayAddObservation (w : World) (sender holder tokenId : Nat) (obs : String)
    (time : Nat) : Except CErr (World × List Effect) :=
  if sender != w.signer then .error .OnlySignerAllowed
  else
    match w.owners tokenId with
    | none => .error .NonexistentToken
    | some o =>
      if o != holder then .error .NotTokenOwner
      else
        let obsLength := obs.utf8ByteSize
        if obsLength < 1 then .error .ObservationTooShort
        else if obsLength > 250 then .error .ObservationTooLong
        else
          .ok ({ w with events := w.events ++ [⟨holder, tokenId, obs, time⟩] },
               [.emitClaimed holder tokenId obs time])

/-- Source `resetClaimStatus` (owner-only admin override). -/
def resetClaimStatus (w : World) (sender user : Nat) :
    Except CErr (World × List Effect) :=
  if sender != w.contractOwner then .error .OwnableUnauthorized
  else
    .ok ({ w with hasClaimed := fun a => if a = user then false else w.hasClaimed a },
         [.hasClaimedSet user false])

/-- Source `resetNonce` (owner-only admin override). -/
def resetNonce (w : World) (sender user newNonce : Nat) :
    Except CErr (World × List Effect) :=
  if sender != w.contractOwner then .error .OwnableUnauthorized
  else
    .ok ({ w with nonces := fun a => if a = user then newNonce else w.nonces a },
         [.nonceSet user newNonce])

/-- Source `setSigner` (owner-only, rejects the zero address). -/
def setSigner (w : World) (sender newSigner : Nat) :
    Except CErr (World × List Effect) :=
  if sender != w.contractOwner then .error .OwnableUnauthorized
  else if newSigner == 0 then .error .ZeroAddress
  else .ok ({ w with signer := newSigner }, [])

/-- Source `onERC721Received`: auto-deposit unclaimed in-range tokens sent
from the NFT contract.  Always succeeds (returns the selector). -/
def onERC721Received (w : World) (fromNFTContract : Bool) (tokenId time : Nat) :
    World × List Effect :=
  if !(isTokenClaimedCached w.claimedBitmapLow tokenId) && fromNFTContract
      && tokenId > 0 && tokenId ≤ 100 then
    ({ w with depositedBitmapLow := setTokenDepositedBit w.depositedBitmapLow tokenId true },
     [.depositedBitSet tokenId true, .emitDeposited tokenId time])
  else (w, [])

/-- Loop body of `depositNFTs`: `transferFrom(msg.sender, this, id)` (which
requires the caller to own the token and reverts on a nonexistent one),
then mark deposited if not already claimed, then emit.  A revert anywhere
aborts the whole transaction. -/
def depositNFTsLoop (w : World) (sender : Nat) (tokenIds : List Nat)
    (time : Nat) : Except CErr (World × List Effect) :=
  match tokenIds with
  | [] => .ok (w, [])
  | tokenId :: rest =>
    if tokenId == 0 || tokenId > 100 then .error .InvalidTokenId
    else
      match w.owners tokenId with
      | none => .error .NonexistentToken
      | some o =>
        if o != sender then .error .TransferError
        else
          let w1 : World :=
            { w with owners := fun t => if t = tokenId then some w.self else w.owners t }
          let depNow := !(isTokenClaimedCached w1.claimedBitmapLow tokenId)
          let w2 : World :=
            { w1 with depositedBitmapLow :=
                if depNow then setTokenDepositedBit w1.depositedBitmapLow tokenId true
                else w1.depositedBitmapLow }
          let fx1 : List Effect :=
            [.nftTransfer sender w.self tokenId]
              ++ (if depNow then [.depositedBitSet tokenId true] else [])
              ++ [.emitDeposited tokenId time]
          match depositNFTsLoop w2 sender rest time with
          | .ok (w3, fx) => .ok (w3, fx1 ++ fx)
          | .error e => .error e

/-- Source `depositNFTs`: owner-only wrapper around the loop. -/
def depositNFTs (w : World) (sender : Nat) (tokenIds : List Nat) (time : Nat) :
    Except CErr (World × List Effect) :=
  if sender != w.contractOwner then .error .OwnableUnauthorized
  else depositNFTsLoop w sender tokenIds time

/-- Loop body of `withdrawNFTs`: tokens currently custodied by the contract
are un-deposited (through `_setTokenDeposited`, whose range guard reverts
`InvalidTokenId` for ids outside [1,100]) and transferred out; others are
skipped.  `ownerOf` on a nonexistent token reverts the whole call. -/
def withdrawNFTsLoop (w : World) (tokenIds : List Nat) (toAddr : Nat) :
    Except CErr (World × List Effect) :=
  match tokenIds with
  | [] => .ok (w, [])
  | tokenId :: rest =>
    match w.owners tokenId with
    | none => .error .NonexistentToken
    | some o =>
      if o == w.self then
        if tokenId == 0 || tokenId > 100 then .error .InvalidTokenId
        else
        let w1 : World :=
          { w with
            depositedBitmapLow := setTokenDepositedBit w.depositedBitmapLow tokenId false
            owners := fun t => if t = tokenId then some toAddr else w.owners t }
        match withdrawNFTsLoop w1 rest toAddr with
        | .ok (w2, fx) =>
          .ok (w2, [.depositedBitSet tokenId false,
                    .nftTransfer w.self toAddr tokenId,
                    .emitWithdrawn tokenId toAddr] ++ fx)
        | .error e => .error e
      else withdrawNFTsLoop w rest toAddr

/-- Source `withdrawNFTs`: owner-only, rejects the zero recipient. -/
def withdrawNFTs (w : World) (sender : Nat) (tokenIds : List Nat) (toAddr : Nat) :
    Except CErr (World × List Effect) :=
  if sender != w.contractOwner then .error .OwnableUnauthorized
  else if toAddr == 0 then .error .ZeroAddress
  else withdrawNFTsLoop w tokenIds toAddr

/-- Every external entry point that can touch the modelled state, plus the
two ways the ERC721 collection can move a token without the claimer's code
running (an external transfer, and a safe transfer into the claimer which
triggers its receive hook). -/
inductive Op where
  | claim (sender tokenId : Nat) (obs : String) (sig : Sig) (time : Nat)
  | relayClaim (sender recipient tokenId : Nat) (obs : String) (time : Nat)
  | addObs (sender tokenId : Nat) (obs : String) (time : Nat)
  | relayAddObs (sender holder tokenId : Nat) (obs : String) (time : Nat)
  | deposit (sender : Nat) (tokenIds : List Nat) (time : Nat)
  | withdraw (sender : Nat) (tokenIds : List Nat) (toAddr : Nat)
  | resetClaim (sender user : Nat)
  | resetNonceOp (sender user newNonce : Nat)
  | setSignerOp (sender newSigner : Nat)
  | safeXferIn (tokenId time : Nat)
  | externXfer (tokenId toAddr : Nat)

/-- One transaction: either all its effects apply or it reverts. -/
def step (w : World) : Op → Except CErr (World × List Effect)
  | .claim s t o sig tm => claimNFT w s t o sig tm
  | .relayClaim s r t o tm => relayClaimNFT w s r t o tm
  | .addObs s t o tm => addObservation w s t o tm
  | .relayAddObs s h t o tm => relayAddObservation w s h t o tm
  | .deposit s ids tm => depositNFTs w s ids tm
  | .withdraw s ids toA => withdrawNFTs w s ids toA
  | .resetClaim s u => resetClaimStatus w s u
  | .resetNonceOp s u n => resetNonce w s u n
  | .setSignerOp s a => setSigner w s a
  | .safeXferIn t tm =>
    match w.owners t with
    | none => .error .NonexistentToken
    | some o =>
      if o == w.self then .error .TransferError
      else
        let w1 : World :=
          { w with owners := fun x => if x = t then some w.self else w.owners x }
        let hooked := onERC721Received w1 true t tm
        .ok (hooked.1, [.nftTransfer o w.self t] ++ hooked.2)
  | .externXfer t toA =>
    match w.owners t with
    | none => .error .NonexistentToken
    | some o =>
      if o == w.self then .error .TransferError
      else
        .ok ({ w with owners := fun x => if x = t then some toA else w.owners x },
             [.nftTransfer o toA t])

/-- Apply a transaction with revert semantics: a reverted transaction leaves
the state untouched. -/
def applyOp (w : World) (op : Op) : World :=
  match step w op with
  | .ok p => p.1
  | .error _ => w

/-- Run a sequence of transactions. -/
def run (w : World) (ops : List Op) : World :=
  ops.foldl applyOp w

/-- Boolean success test for a transaction. -/
def stepOk (w : World) (op : Op) : Bool :=
  match step w op with
  | .ok _ => true
  | .error _ => false

/-- The token id an operation would claim (set a claimed bit for), when it
is one of the two claim entry points. -/
def opClaimToken : Op → Option Nat
  | .claim _ t _ _ _ => some t
  | .relayClaim _ _ t _ _ => some t
  | _ => none

/-- Successful claim of token `t` from state `w`. -/
def claimSuccess (w : World) (op : Op) (t : Nat) : Prop :=
  opClaimToken op = some t ∧ stepOk w op = true

instance (w : World) (op : Op) (t : Nat) : Decidable (claimSuccess w op t) :=
  inferInstanceAs (Decidable (_ ∧ _))

/-! Backend service (`src/unnamed/part_007`): guardian failure tracking,
the evaluator boundary, the relay executor and the submit-observation
route. -/

/-- Entry of the `guardianFailures` map: `{ count, blockedUntil }`. -/
structure GuardianRecord where
  count : Nat
  blockedUntil : Option Nat
deriving DecidableEq, Repr

/-- The `guardianFailures` JavaScript `Map`, as an association list keyed
by origin IP. -/
abbrev GuardianMap := List (String × GuardianRecord)

/-- `Map.get`. -/
def mapGet (m : GuardianMap) (ip : String) : Option GuardianRecord :=
  match m.find? (fun p => p.1 == ip) with
  | some p => some p.2
  | none => none

/-- `Map.set` (replace or append). -/
def mapSet (m : GuardianMap) (ip : String) (r : GuardianRecord) : GuardianMap :=
  match m with
  | [] => [(ip, r)]
  | p :: rest => if p.1 == ip then (ip, r) :: rest else p :: mapSet rest ip r

/-- `Map.delete`. -/
def mapDelete (m : GuardianMap) (ip : String) : GuardianMap :=
  m.filter (fun p => p.1 != ip)

/-- Result shape of `checkGuardianBlock`. -/
inductive BlockStatus where
  | blocked (remainingMins : Nat)
  | notBlocked (failureCount : Option Nat)
deriving DecidableEq, Repr

/-- Source `checkGuardianBlock(ip)`: report an unexpired block with the
remaining minutes (`Math.ceil(remainingMs / 60000)`), delete an expired
block, otherwise pass.  Returns the status and the (possibly cleaned) map. -/
def checkGuardianBlock (m : GuardianMap) (ip : String) (now : Nat) :
    BlockStatus × GuardianMap :=
  match mapGet m ip with
  | none => (.notBlocked none, m)
  | some record =>
    match record.blockedUntil with
    | some bu =>
      if now < bu then
        let remainingMs := bu - now
        let remainingMins := (remainingMs + 59999) / 60000
        (.blocked remainingMins, m)
      else (.notBlocked none, mapDelete m ip)
    | none => (.notBlocked (some record.count), m)

/-- Source `recordGuardianFailure(ip)`: increment the count, and at count
`≥ 3` set `blockedUntil = now + 1h` (3 600 000 ms).  Returns the updated
record and map. -/
def recordGuardianFailure (m : GuardianMap) (ip : String) (now : Nat) :
    GuardianRecord × GuardianMap :=
  let record0 := (mapGet m ip).getD ⟨0, none⟩
  let record1 : GuardianRecord := { record0 with count := record0.count + 1 }
  let record2 : GuardianRecord :=
    if record1.count ≥ 3 then { record1 with blockedUntil := some (now + 3600000) }
    else record1
  (record2, mapSet m ip record2)

/-- Source `resetGuardianFailures(ip)`. -/
def resetGuardianFailures (m : GuardianMap) (ip : String) : GuardianMap :=
  mapDelete m ip

/-- Parsed evaluator outcome as `validateObservationWithGemini` returns it
(the fields the route branches on or echoes back). -/
structure Evaluation where
  approved : Bool
  softReject : Bool
  facilitatorQuestion : Option String
  reason : String
  score : Nat
deriving DecidableEq, Repr

/-- The record `validateObservationWithGemini` returns when the scoring
call errors and the fallback also fails (source lines 609-617). -/
def evalUnavailableResult : Evaluation :=
  { approved := false
    softReject := false
    facilitatorQuestion := none
    reason := "The Guardian is momentarily unavailable. Please try again."
    score := 0 }

/-- JavaScript `String.prototype.trim`: strip leading and trailing
whitespace. -/
def jsTrim (s : String) : String :=
  ⟨((s.data.dropWhile Char.isWhitespace).reverse.dropWhile Char.isWhitespace).reverse⟩

/-- Soft-reject facilitation message built by the route. -/
def facilitationMessage (q : Option String) : String :=
  match q with
  | some s => "The Guardian senses potential in your words. " ++ s
  | none => "The Guardian senses potential in your words. Look deeper and try again."

/-- Source `generateClaimSignature`: the backend signs
`keccak256(solidityPacked(address, uint256 tokenId, string observation))` —
note the absence of the claimant's nonce from the message. -/
def generateClaimSignature (signerKey : Nat) (claimerAddress tokenId : Nat)
    (observation : String) : Sig :=
  ⟨signerKey, .noNonce claimerAddress tokenId observation⟩

/-- Response bodies of `POST /api/submit-observation`, one constructor per
`res.json`/`res.status(...).json` exit of the handler. -/
inductive SubmitResponse where
  | gateBlocked (remainingMins : Nat)
  | invalidAddress
  | tooShort
  | tooLong
  | alreadyClaimedResp
  | tokenTaken
  | softRejected (ev : Evaluation) (message : String)
  | hardRejected (ev : Evaluation) (attemptsRemaining : Nat) (blocked : Bool)
  | approvedClaimed (ev : Evaluation) (txHash : String)
  | approvedManual (ev : Evaluation) (signature : Option Sig)
deriving DecidableEq, Repr

/-- Outcome of one run of the route: the response, the guardian map after
the request, and whether the evaluator was invoked at all. -/
structure SubmitResult where
  response : SubmitResponse
  gmap : GuardianMap
  evaluatorInvoked : Bool
deriving DecidableEq, Repr

/-- The `POST /api/submit-observation` handler.  External awaits are passed
as oracles: `hasClaimedView`/`tokenAvailableView` are the chain reads,
`evaluation` is what `validateObservationWithGemini` resolved to, and
`relayOutcome` is how `executeRelayClaim` ended (`.ok txHash` or a thrown
error message).  Control flow mirrors the handler top to bottom: guardian
gate, input validation, contract pre-checks, evaluator dispatch, then
relay with the signed-message fallback. -/
def submitObservation (signerKey : Nat) (m : GuardianMap) (ip : String)
    (now : Nat) (addressValid : Bool) (address : Nat) (observation : String)
    (tokenId : Option Nat) (hasClaimedView : Bool) (tokenAvailableView : Bool)
    (evaluation : Evaluation) (relayOutcome : Except String String) :
    SubmitResult :=
  let checked := checkGuardianBlock m ip now
  match checked.1 with
  | .blocked remainingMins => ⟨.gateBlocked remainingMins, checked.2, false⟩
  | .notBlocked _ =>
    let m := checked.2
    if !addressValid then ⟨.invalidAddress, m, false⟩
    else
      let trimmedObservation := jsTrim observation
      if trimmedObservation.length < 10 then ⟨.tooShort, m, false⟩
      else if trimmedObservation.length > 250 then ⟨.tooLong, m, false⟩
      else if hasClaimedView then ⟨.alreadyClaimedResp, m, false⟩
      else if tokenId.isSome && !tokenAvailableView then ⟨.tokenTaken, m, false⟩
      else if !evaluation.approved then
        if evaluation.softReject then
          ⟨.softRejected evaluation (facilitationMessage evaluation.facilitatorQuestion),
           m, true⟩
        else
          let recorded := recordGuardianFailure m ip now
          let attemptsRemaining := 3 - recorded.1.count
          ⟨.hardRejected evaluation attemptsRemaining recorded.1.blockedUntil.isSome,
           recorded.2, true⟩
      else
        let m := resetGuardianFailures m ip
        match relayOutcome with
        | .ok txHash => ⟨.approvedClaimed evaluation txHash, m, true⟩
        | .error _ =>
          let signature :=
            tokenId.map (fun t => generateClaimSignature signerKey address t trimmedObservation)
          ⟨.approvedManual evaluation signature, m, true⟩

/-! Relay executor (`executeRelayClaim`). -/

/-- What one loop iteration of `executeRelayClaim` observes from the
provider: either gas estimation and submission go through, or something in
the `try` block throws with a message. -/
inductive AttemptOutcome where
  | works (gasEstimate : Nat) (txHash : String)
  | fails (errMsg : String)
deriving DecidableEq, Repr

/-- Externally visible relay events, in order: submissions (with the gas
limit actually sent) and backoff sleeps (in milliseconds). -/
inductive RelayEvent where
  | submitted (gasLimit : Nat) (txHash : String)
  | delayed (ms : Nat)
deriving DecidableEq, Repr

/-- Decidable equality for `Except`, used to evaluate relay outcomes on
concrete inputs. -/
def exceptDecEq {ε α : Type} [DecidableEq ε] [DecidableEq α] :
    DecidableEq (Except ε α)
  | .error a, .error b =>
    if h : a = b then .isTrue (h ▸ rfl)
    else .isFalse (fun hc => by cases hc; exact h rfl)
  | .error _, .ok _ => .isFalse (fun hc => by cases hc)
  | .ok _, .error _ => .isFalse (fun hc => by cases hc)
  | .ok a, .ok b =>
    if h : a = b then .isTrue (h ▸ rfl)
    else .isFalse (fun hc => by cases hc; exact h rfl)

instance {ε α : Type} [DecidableEq ε] [DecidableEq α] :
    DecidableEq (Except ε α) := exceptDecEq

/-- Naive substring scan over character lists. -/
def listIncludes : List Char → List Char → Bool
  | _, [] => true
  | [], _ :: _ => false
  | c :: rest, sub => sub.isPrefixOf (c :: rest) || listIncludes rest sub

/-- JavaScript `String.prototype.includes`. -/
def includesStr (s sub : String) : Bool :=
  listIncludes s.data sub.data

/-- Source classification of non-recoverable submission errors (the
`error.message.includes(...)` chain before the backoff). -/
def isNonRecoverableError (msg : String) : Bool :=
  includesStr msg "Already claimed" || includesStr msg "Token not available"
    || includesStr msg "insufficient funds"

/-- Gas limit actually submitted: `gasEstimate * 120n / 100n`. -/
def relayGasLimit (gasEstimate : Nat) : Nat :=
  gasEstimate * 120 / 100

/-- The retry loop of `executeRelayClaim`, recursing on the number of
attempts still allowed (`remaining = maxRetries - attempt + 1`).  On
success it submits with the buffered gas limit and returns the hash; on a
non-recoverable error it breaks out at once; on a recoverable error it
sleeps `2 ^ attempt` seconds and retries while attempts remain; when the
loop ends the last error is thrown. -/
def executeRelayAttempts (oracle : Nat → AttemptOutcome) (attempt : Nat) :
    Nat → List RelayEvent × Except String String
  | 0 => ([], .error "")
  | remaining + 1 =>
    match oracle attempt with
    | .works est txh => ([.submitted (relayGasLimit est) txh], .ok txh)
    | .fails msg =>
      if isNonRecoverableError msg then ([], .error msg)
      else if remaining > 0 then
        let nextOutcome := executeRelayAttempts oracle (attempt + 1) remaining
        (.delayed (2 ^ attempt * 1000) :: nextOutcome.1, nextOutcome.2)
      else ([], .error msg)

/-- Source `executeRelayClaim` with its default `maxRetries = 3`, starting
at attempt 1. -/
def executeRelayClaim (oracle : Nat → AttemptOutcome) (maxRetries : Nat := 3) :
    List RelayEvent × Except String String :=
  executeRelayAttempts oracle 1 maxRetries

/-! Observation ledger (`fetchObservationsFromEvents`): replay the
`NFTClaimed` history from genesis keeping only the first event per token. -/

/-- Lookup in the rebuilt observation cache. -/
def cacheGet (cache : List (Nat × ClaimEvent)) (tokenId : Nat) :
    Option ClaimEvent :=
  match cache.find? (fun p => p.1 == tokenId) with
  | some p => some p.2
  | none => none

/-- Source `fetchObservationsFromEvents`: fold over the full event history
in order, inserting an entry only when the token has none yet
(`if (!newCache.has(tokenId)) newCache.set(...)`). -/
def fetchObservationsFromEvents (events : List ClaimEvent) :
    List (Nat × ClaimEvent) :=
  events.foldl
    (fun cache ev =>
      if (cacheGet cache ev.tokenId).isSome then cache
      else cache ++ [(ev.tokenId, ev)])
    []

/-! Read views of the contract. -/

/-- Predicate tested by both loop passes of `getAvailableTokens` and by
`availableCount`: deposited, not claimed, and (inside `try`/`catch`, so a
reverting `ownerOf` just skips the id) custodied by the contract. -/
def availTest (w : World) (i : Nat) : Bool :=
  isTokenDepositedCached w.depositedBitmapLow i
    && !(isTokenClaimedCached w.claimedBitmapLow i)
    && (match w.owners i with
        | some o => o == w.self
        | none => false)

/-- Source `isTokenAvailable`: `some` is the returned boolean, `none` is a
revert bubbling up from `ownerOf` (that call has no `try`/`catch` here and
is only reached when the two bitmap tests pass, thanks to `&&`
short-circuiting). -/
def isTokenAvailable (w : World) (tokenId : Nat) : Option Bool :=
  if tokenId == 0 || tokenId > 100 then some false
  else
    let depositedBitmap := w.depositedBitmapLow
    let claimedBitmap := w.claimedBitmapLow
    if isTokenDepositedCached depositedBitmap tokenId
        && !(isTokenClaimedCached claimedBitmap tokenId) then
      match w.owners tokenId with
      | none => none
      | some o => some (o == w.self)
    else some false

/-- Source `getAvailableTokens`: the populate pass over ids 1..100 (the
count pass only sizes the array the populate pass fills). -/
def getAvailableTokens (w : World) : List Nat :=
  (List.range' 1 100).foldl
    (fun acc i => if availTest w i then acc ++ [i] else acc) []

/-- Source `availableCount`: the same loop, counting. -/
def availableCount (w : World) : Nat :=
  (List.range' 1 100).foldl
    (fun c i => if availTest w i then c + 1 else c) 0

/-! Small observation helpers used to state theorems about `Except`
results without comparing whole worlds. -/

/-- The error of a reverted call, `none` on success. -/
def errOf {α : Type} : Except CErr α → Option CErr
  | .error e => some e
  | .ok _ => none

/-- The post-state of a successful call. -/
def okWorld : Except CErr (World × List Effect) → Option World
  | .ok p => some p.1
  | .error _ => none

/-- The effect trace of a successful call. -/
def okEffects : Except CErr (World × List Effect) → Option (List Effect)
  | .ok p => some p.2
  | .error _ => none

/-- Sequential double call of `addObservation` for one token by its owner
(first call, then a second one on the resulting state). -/
def addObservationTwice (w : World) (sender tokenId : Nat)
    (obs1 obs2 : String) (t1 t2 : Nat) : Except CErr World :=
  match addObservation w sender tokenId obs1 t1 with
  | .error e => .error e
  | .ok p1 =>
    match addObservation p1.1 sender tokenId obs2 t2 with
    | .error e => .error e
    | .ok p2 => .ok p2.1

/-! Example states and traces used by the closed witness and
counterexample theorems. -/

/-- Example state: token 5 deposited and custodied by the pool (address
77), nothing claimed, trusted signer 9, contract owner 1. -/
def wEx : World :=
  { signer := 9, contractOwner := 1
    hasClaimed := fun _ => false
    nonces := fun _ => 0
    claimedBitmapLow := 0
    depositedBitmapLow := 1 <<< 4
    owners := fun t => if t = 5 then some 77 else none
    self := 77
    events := [] }

/-- Valid backend signature for claimant 7, token 5, nonce 0 in `wEx`. -/
def sigEx : Sig := ⟨9, .withNonce 7 5 "hello" 0⟩

/-- Trace: a valid claim of token 5 by claimant 7, then a second claim
attempt for the same token by a different claimant 8. -/
def opsEx : List Op :=
  [.claim 7 5 "hello" sigEx 10,
   .claim 8 5 "other words" ⟨9, .withNonce 8 5 "other words" 0⟩ 11]

/-- Example state like `wEx` but with claimant 7's nonce forced to the
maximum uint256 value, as the owner can do through
`resetNonce(user, type(uint256).max)`: the next successful claim wraps the
stored nonce to 0. -/
def wNonceMax : World :=
  { signer := 9, contractOwner := 1
    hasClaimed := fun _ => false
    nonces := fun a => if a = 7 then 2 ^ 256 - 1 else 0
    claimedBitmapLow := 0
    depositedBitmapLow := 1 <<< 4
    owners := fun t => if t = 5 then some 77 else none
    self := 77
    events := [] }

/-- Example state for the once-claimed counterexamples: token 5 claimed
and claimant 8 already served. -/
def wCl : World :=
  { signer := 9, contractOwner := 1
    hasClaimed := fun a => a = 8
    nonces := fun _ => 0
    claimedBitmapLow := 1 <<< 4
    depositedBitmapLow := 1 <<< 4
    owners := fun t => if t = 5 then some 8 else none
    self := 77
    events := [] }

/-- Iterated soft-rejected submissions from one origin: the guardian map
after `k` consecutive soft rejections with fixed request data. -/
def softIter (signerKey : Nat) (ip : String) (now : Nat) (address : Nat)
    (observation : String) (tokenId : Option Nat) (tokenAvailableView : Bool)
    (ev : Evaluation) (relay : Except String String) (m : GuardianMap) :
    Nat → GuardianMap
  | 0 => m
  | k + 1 =>
    (submitObservation signerKey
      (softIter signerKey ip now address observation tokenId tokenAvailableView
        ev relay m k)
      ip now true address observation tokenId false tokenAvailableView ev
      relay).gmap

/-- Does this operation reset the has-claimed flag of claimant `c`
(the only admin override that can clear it)? -/
def isResetOf : Op → Nat → Bool
  | .resetClaim _ u, c => u == c
  | _, _ => false

/-- The `hasClaimed` flag of `c` rises (false to true) at position `i` of
the trace `ops` started in `w0`. -/
def risingAt (w0 : World) (ops : List Op) (c : Nat) (i : Nat) : Prop :=
  (run w0 (ops.take i)).hasClaimed c = false ∧
  (run w0 (ops.take (i + 1))).hasClaimed c = true

instance (w0 : World) (ops : List Op) (c i : Nat) :
    Decidable (risingAt w0 ops c i) :=
  inferInstanceAs (Decidable (_ ∧ _))

/-- Example hard-rejection evaluator outcome (low score, no soft flag). -/
def hardEvalEx : Evaluation :=
  ⟨false, false, none, "Low-effort response.", 2⟩

/-- Example soft-rejection evaluator outcome (middle-band score). -/
def softEvalEx : Evaluation :=
  ⟨false, true, some "What colors or shapes draw your eye first?",
   "Shows potential.", 3⟩

/-- Example relay oracle: transient failures on attempts 1 and 2, success
on attempt 3. -/
def oracleEx : Nat → AttemptOutcome :=
  fun a => if a = 3 then .works 100000 "0xdead" else .fails "network timeout"

/-- Concrete three-hard-rejections chain from a fresh origin, followed by a
fourth attempt during the block (used by the C4 witness). -/
def c4r1 : SubmitResult :=
  submitObservation 9 [] "1.2.3.4" 0 true 7 "a genuine observation" (some 5)
    false true hardEvalEx (.ok "0x1")

def c4r2 : SubmitResult :=
  submitObservation 9 c4r1.gmap "1.2.3.4" 1 true 7 "a genuine observation"
    (some 5) false true hardEvalEx (.ok "0x1")

def c4r3 : SubmitResult :=
  submitObservation 9 c4r2.gmap "1.2.3.4" 2 true 7 "a genuine observation"
    (some 5) false true hardEvalEx (.ok "0x1")

def c4r4 : SubmitResult :=
  submitObservation 9 c4r3.gmap "1.2.3.4" 3 true 7 "a genuine observation"
    (some 5) false true hardEvalEx (.ok "0x1")

/-! Bitmap bridge lemmas. -/

theorem and_shift_ne (bitmap idx : Nat) :
    ((bitmap &&& (1 <<< idx)) != 0) = bitmap.testBit idx := by
  rw [Nat.shiftLeft_eq, one_mul]
  cases hb : bitmap.testBit idx <;>
    simp [Nat.and_two_pow, hb, Nat.pow_eq_zero]

theorem claimedCached_eq_testBit (b t : Nat) (h1 : 1 ≤ t) (h2 : t ≤ 100) :
    isTokenClaimedCached b t = b.testBit (t - 1) := by
  unfold isTokenClaimedCached
  rw [if_neg, and_shift_ne]
  simp only [Bool.or_eq_true, beq_iff_eq, decide_eq_true_eq]
  omega

theorem claimedCached_range (b t : Nat) (h : isTokenClaimedCached b t = false) :
    1 ≤ t ∧ t ≤ 100 := by
  by_contra hc
  unfold isTokenClaimedCached at h
  rw [if_pos] at h
  · exact Bool.true_eq_false ▸ h.symm ▸ (by cases h)
  · simp only [Bool.or_eq_true, beq_iff_eq, decide_eq_true_eq]
    omega

theorem setClaimed_self (b t : Nat) (h : isTokenClaimedCached b t = false) :
    isTokenClaimedCached (setTokenClaimedBit b t) t = true := by
  obtain ⟨h1, h2⟩ := claimedCached_range b t h
  rw [claimedCached_eq_testBit _ _ h1 h2]
  unfold setTokenClaimedBit
  rw [Nat.testBit_or, Nat.shiftLeft_eq, one_mul, Nat.testBit_two_pow_self,
    Bool.or_true]

theorem claimedCached_or_mono (b x t : Nat)
    (h : isTokenClaimedCached b t = true) :
    isTokenClaimedCached (b ||| x) t = true := by
  by_cases hr : 1 ≤ t ∧ t ≤ 100
  · rw [claimedCached_eq_testBit _ _ hr.1 hr.2] at h ⊢
    rw [Nat.testBit_or, h, Bool.true_or]
  · unfold isTokenClaimedCached
    rw [if_pos]
    simp only [Bool.or_eq_true, beq_iff_eq, decide_eq_true_eq]
    omega

/-! Inversion lemmas: what a successful call implies about the pre-state
and how it builds the post-state. -/

theorem claimNFT_ok_inv {w : World} {s t : Nat} {o : String} {sig : Sig}
    {tm : Nat} {w' : World} {fx : List Effect}
    (h : claimNFT w s t o sig tm = .ok (w', fx)) :
    w.hasClaimed s = false ∧
    isTokenClaimedCached w.claimedBitmapLow t = false ∧
    w'.claimedBitmapLow = setTokenClaimedBit w.claimedBitmapLow t ∧
    w'.hasClaimed = (fun a => if a = s then true else w.hasClaimed a) ∧
    w'.nonces = (fun a => if a = s then (w.nonces s + 1) % 2 ^ 256 else w.nonces a) ∧
    w'.events = w.events ++ [⟨s, t, o, tm⟩] ∧
    fx = [.nonceSet s ((w.nonces s + 1) % 2 ^ 256), .hasClaimedSet s true,
          .claimedBitSet t, .nftTransfer w.self s t,
          .emitClaimed s t o tm] := by
  simp only [claimNFT] at h
  repeat' split at h
  all_goals cases h
  refine ⟨by simp_all, by simp_all, rfl, rfl, rfl, rfl, rfl⟩

theorem relayClaimNFT_ok_inv {w : World} {s r t : Nat} {o : String}
    {tm : Nat} {w' : World} {fx : List Effect}
    (h : relayClaimNFT w s r t o tm = .ok (w', fx)) :
    s = w.signer ∧
    w.hasClaimed r = false ∧
    isTokenClaimedCached w.claimedBitmapLow t = false ∧
    w'.claimedBitmapLow = setTokenClaimedBit w.claimedBitmapLow t ∧
    w'.hasClaimed = (fun a => if a = r then true else w.hasClaimed a) ∧
    w'.nonces = w.nonces ∧
    w'.events = w.events ++ [⟨r, t, o, tm⟩] := by
  simp only [relayClaimNFT] at h
  repeat' split at h
  all_goals cases h
  refine ⟨by simp_all, by simp_all, by simp_all, rfl, rfl, rfl, rfl⟩

theorem addObservation_ok_inv {w : World} {s t : Nat} {o : String} {tm : Nat}
    {w' : World} {fx : List Effect}
    (h : addObservation w s t o tm = .ok (w', fx)) :
    w'.claimedBitmapLow = w.claimedBitmapLow ∧ w'.hasClaimed = w.hasClaimed ∧
    w'.nonces = w.nonces ∧ w'.events = w.events ++ [⟨s, t, o, tm⟩] := by
  simp only [addObservation] at h
  repeat' split at h
  all_goals cases h
  exact ⟨rfl, rfl, rfl, rfl⟩

theorem relayAddObservation_ok_inv {w : World} {s hl t : Nat} {o : String}
    {tm : Nat} {w' : World} {fx : List Effect}
    (h : relayAddObservation w s hl t o tm = .ok (w', fx)) :
    w'.claimedBitmapLow = w.claimedBitmapLow ∧ w'.hasClaimed = w.hasClaimed ∧
    w'.nonces = w.nonces := by
  simp only [relayAddObservation] at h
  repeat' split at h
  all_goals cases h
  exact ⟨rfl, rfl, rfl⟩

theorem resetClaimStatus_ok_inv {w : World} {s u : Nat} {w' : World}
    {fx : List Effect} (h : resetClaimStatus w s u = .ok (w', fx)) :
    w'.claimedBitmapLow = w.claimedBitmapLow ∧
    w'.hasClaimed = (fun a => if a = u then false else w.hasClaimed a) := by
  simp only [resetClaimStatus] at h
  repeat' split at h
  all_goals cases h
  exact ⟨rfl, rfl⟩

theorem resetNonce_ok_inv {w : World} {s u n : Nat} {w' : World}
    {fx : List Effect} (h : resetNonce w s u n = .ok (w', fx)) :
    w'.claimedBitmapLow = w.claimedBitmapLow ∧ w'.hasClaimed = w.hasClaimed := by
  simp only [resetNonce] at h
  repeat' split at h
  all_goals cases h
  exact ⟨rfl, rfl⟩

theorem setSigner_ok_inv {w : World} {s a : Nat} {w' : World}
    {fx : List Effect} (h : setSigner w s a = .ok (w', fx)) :
    w'.claimedBitmapLow = w.claimedBitmapLow ∧ w'.hasClaimed = w.hasClaimed := by
  simp only [setSigner] at h
  repeat' split at h
  all_goals cases h
  exact ⟨rfl, rfl⟩

theorem onERC721Received_inv (w : World) (b : Bool) (t tm : Nat) :
    (onERC721Received w b t tm).1.claimedBitmapLow = w.claimedBitmapLow ∧
    (onERC721Received w b t tm).1.hasClaimed = w.hasClaimed := by
  unfold onERC721Received
  split <;> exact ⟨rfl, rfl⟩

theorem depositNFTsLoop_ok_inv {w : World} {s : Nat} {ids : List Nat}
    {tm : Nat} {w' : World} {fx : List Effect}
    (h : depositNFTsLoop w s ids tm = .ok (w', fx)) :
    w'.claimedBitmapLow = w.claimedBitmapLow ∧ w'.hasClaimed = w.hasClaimed ∧
    w'.nonces = w.nonces := by
  induction ids generalizing w fx with
  | nil =>
    simp only [depositNFTsLoop] at h
    cases h
    exact ⟨rfl, rfl, rfl⟩
  | cons tid rest ih =>
    simp only [depositNFTsLoop] at h
    repeat' split at h
    all_goals try cases h
    all_goals rename_i hrec
    all_goals have hres := ih hrec
    all_goals exact hres

theorem withdrawNFTsLoop_ok_inv {w : World} {ids : List Nat} {toA : Nat}
    {w' : World} {fx : List Effect}
    (h : withdrawNFTsLoop w ids toA = .ok (w', fx)) :
    w'.claimedBitmapLow = w.claimedBitmapLow ∧ w'.hasClaimed = w.hasClaimed ∧
    w'.nonces = w.nonces := by
  induction ids generalizing w fx with
  | nil =>
    simp only [withdrawNFTsLoop] at h
    cases h
    exact ⟨rfl, rfl, rfl⟩
  | cons tid rest ih =>
    simp only [withdrawNFTsLoop] at h
    repeat' split at h
    all_goals try cases h
    all_goals first
    | exact ih h
    | (rename_i hrec
       have hres := ih hrec
       exact hres)

/-! Step-level frame and monotonicity lemmas. -/

theorem step_claimed_inv {w : World} {op : Op} {w' : World} {fx : List Effect}
    (h : step w op = .ok (w', fx)) :
    w'.claimedBitmapLow = w.claimedBitmapLow ∨
    ∃ t, opClaimToken op = some t ∧
      isTokenClaimedCached w.claimedBitmapLow t = false ∧
      w'.claimedBitmapLow = setTokenClaimedBit w.claimedBitmapLow t := by
  cases op with
  | claim s t o sig tm =>
    obtain ⟨_, h2, h3, _⟩ := claimNFT_ok_inv h
    exact Or.inr ⟨t, rfl, h2, h3⟩
  | relayClaim s r t o tm =>
    obtain ⟨_, _, h3, h4, _⟩ := relayClaimNFT_ok_inv h
    exact Or.inr ⟨t, rfl, h3, h4⟩
  | addObs s t o tm => exact Or.inl (addObservation_ok_inv h).1
  | relayAddObs s hl t o tm => exact Or.inl (relayAddObservation_ok_inv h).1
  | deposit s ids tm =>
    simp only [step, depositNFTs] at h
    split at h
    · cases h
    · exact Or.inl (depositNFTsLoop_ok_inv h).1
  | withdraw s ids toA =>
    simp only [step, withdrawNFTs] at h
    split at h
    · cases h
    · split at h
      · cases h
      · exact Or.inl (withdrawNFTsLoop_ok_inv h).1
  | resetClaim s u => exact Or.inl (resetClaimStatus_ok_inv h).1
  | resetNonceOp s u n => exact Or.inl (resetNonce_ok_inv h).1
  | setSignerOp s a => exact Or.inl (setSigner_ok_inv h).1
  | safeXferIn t tm =>
    simp only [step] at h
    repeat' split at h
    all_goals cases h
    exact Or.inl (onERC721Received_inv _ true t tm).1
  | externXfer t toA =>
    simp only [step] at h
    repeat' split at h
    all_goals cases h
    exact Or.inl rfl

theorem step_hasClaimed_mono {w : World} {op : Op} {w' : World}
    {fx : List Effect} (h : step w op = .ok (w', fx)) (c : Nat)
    (hr : isResetOf op c = false) (hc : w.hasClaimed c = true) :
    w'.hasClaimed c = true := by
  cases op with
  | claim s t o sig tm =>
    obtain ⟨_, _, _, h4, _⟩ := claimNFT_ok_inv h
    rw [h4]
    by_cases hcs : c = s <;> simp [hcs, hc]
  | relayClaim s r t o tm =>
    obtain ⟨_, _, _, _, h5, _⟩ := relayClaimNFT_ok_inv h
    rw [h5]
    by_cases hcr : c = r <;> simp [hcr, hc]
  | addObs s t o tm => rw [(addObservation_ok_inv h).2.1]; exact hc
  | relayAddObs s hl t o tm => rw [(relayAddObservation_ok_inv h).2.1]; exact hc
  | deposit s ids tm =>
    simp only [step, depositNFTs] at h
    split at h
    · cases h
    · rw [(depositNFTsLoop_ok_inv h).2.1]; exact hc
  | withdraw s ids toA =>
    simp only [step, withdrawNFTs] at h
    split at h
    · cases h
    · split at h
      · cases h
      · rw [(withdrawNFTsLoop_ok_inv h).2.1]; exact hc
  | resetClaim s u =>
    simp only [isResetOf] at hr
    obtain ⟨_, h2⟩ := resetClaimStatus_ok_inv h
    rw [h2]
    have hcu : ¬ c = u := fun hcu => by simp [hcu] at hr
    simp [hcu, hc]
  | resetNonceOp s u n => rw [(resetNonce_ok_inv h).2]; exact hc
  | setSignerOp s a => rw [(setSigner_ok_inv h).2]; exact hc
  | safeXferIn t tm =>
    simp only [step] at h
    repeat' split at h
    all_goals cases h
    rw [(onERC721Received_inv _ true t tm).2]; exact hc
  | externXfer t toA =>
    simp only [step] at h
    repeat' split at h
    all_goals cases h
    exact hc

theorem applyOp_claimedCached_mono (w : World) (op : Op) (t : Nat)
    (h : isTokenClaimedCached w.claimedBitmapLow t = true) :
    isTokenClaimedCached (applyOp w op).claimedBitmapLow t = true := by
  unfold applyOp
  cases hs : step w op with
  | error e => exact h
  | ok p =>
    rcases step_claimed_inv hs with heq | ⟨t', _, _, heq⟩
    · rw [heq]; exact h
    · rw [heq]
      unfold setTokenClaimedBit
      exact claimedCached_or_mono _ _ _ h

theorem applyOp_hasClaimed_mono (w : World) (op : Op) (c : Nat)
    (hr : isResetOf op c = false) (hc : w.hasClaimed c = true) :
    (applyOp w op).hasClaimed c = true := by
  unfold applyOp
  cases hs : step w op with
  | error e => exact hc
  | ok p => exact step_hasClaimed_mono hs c hr hc

theorem run_claimedCached_mono (ops : List Op) (w : World) (t : Nat)
    (h : isTokenClaimedCached w.claimedBitmapLow t = true) :
    isTokenClaimedCached (run w ops).claimedBitmapLow t = true := by
  induction ops generalizing w with
  | nil => exact h
  | cons op rest ih =>
    exact ih (applyOp w op) (applyOp_claimedCached_mono w op t h)

theorem run_hasClaimed_mono (ops : List Op) (w : World) (c : Nat)
    (hr : ∀ op ∈ ops, isResetOf op c = false)
    (hc : w.hasClaimed c = true) : (run w ops).hasClaimed c = true := by
  induction ops generalizing w with
  | nil => exact hc
  | cons op rest ih =>
    exact ih (applyOp w op) (fun o ho => hr o (List.mem_cons_of_mem _ ho))
      (applyOp_hasClaimed_mono w op c (hr op (List.mem_cons_self _ _)) hc)

theorem claimSuccess_pre_post {w : World} {op : Op} {t : Nat}
    (h : claimSuccess w op t) :
    isTokenClaimedCached w.claimedBitmapLow t = false ∧
    isTokenClaimedCached (applyOp w op).claimedBitmapLow t = true := by
  obtain ⟨hop, hok⟩ := h
  unfold stepOk at hok
  split at hok
  case h_2 => cases hok
  case h_1 p hs =>
    rcases step_claimed_inv hs with heq | ⟨t', hop', hpre, heq⟩
    · -- an op that leaves the claimed bitmap unchanged cannot name a claim token
      exfalso
      cases op <;> simp_all [opClaimToken]
      · obtain ⟨h1, h2, h3, _⟩ := claimNFT_ok_inv hs
        rw [h3] at heq
        rw [claimedCached_eq_testBit _ _ (claimedCached_range _ _ h2).1
          (claimedCached_range _ _ h2).2] at h2
        have := congrArg (fun b => b.testBit (t - 1)) heq
        simp only [setTokenClaimedBit, Nat.testBit_or, Nat.shiftLeft_eq, one_mul,
          Nat.testBit_two_pow_self, Bool.or_true] at this
        rw [← this] at h2
        cases h2
      · obtain ⟨_, _, h3, h4, _⟩ := relayClaimNFT_ok_inv hs
        rw [h4] at heq
        rw [claimedCached_eq_testBit _ _ (claimedCached_range _ _ h3).1
          (claimedCached_range _ _ h3).2] at h3
        have := congrArg (fun b => b.testBit (t - 1)) heq
        simp only [setTokenClaimedBit, Nat.testBit_or, Nat.shiftLeft_eq, one_mul,
          Nat.testBit_two_pow_self, Bool.or_true] at this
        rw [← this] at h3
        cases h3
    · have htt : t' = t := by
        rw [hop] at hop'
        exact (Option.some.injEq _ _).mp hop'.symm
      subst htt
      refine ⟨hpre, ?_⟩
      unfold applyOp
      rw [hs, heq]
      exact setClaimed_self _ _ hpre

theorem run_append (w : World) (l1 l2 : List Op) :
    run w (l1 ++ l2) = run (run w l1) l2 := by
  simp [run, List.foldl_append]

theorem run_take_succ (w0 : World) (ops : List Op) (i : Nat)
    (h : i < ops.length) :
    run w0 (ops.take (i + 1)) = applyOp (run w0 (ops.take i)) (ops.get ⟨i, h⟩) := by
  rw [List.take_succ, run_append]
  have : ops[i]? = some (ops.get ⟨i, h⟩) := by
    rw [List.getElem?_eq_getElem h, List.get_eq_getElem]
  rw [this]
  rfl

theorem take_decomp (ops : List Op) (i j : Nat) (hij : i < j) :
    ops.take j = ops.take (i + 1) ++ (ops.drop (i + 1)).take (j - (i + 1)) := by
  rw [← List.take_add]
  congr 1
  omega

/-- Key single-token lemma: after a availability check already sees the
claimed bit for `t`, `claimNFT` reverts, with the precise error determined
by the earlier guards. -/
theorem claimNFT_after_claimed_err (w : World) (c t : Nat) (o : String)
    (sig : Sig) (tm : Nat)
    (hcl : isTokenClaimedCached w.claimedBitmapLow t = true) :
    claimNFT w c t o sig tm =
      .error (if w.hasClaimed c then .AlreadyClaimed
        else if o.utf8ByteSize < 1 then .ObservationTooShort
        else if o.utf8ByteSize > 250 then .ObservationTooLong
        else .TokenNotAvailable) := by
  unfold claimNFT
  by_cases h1 : w.hasClaimed c = true
  · simp [h1]
  · simp only [Bool.not_eq_true] at h1
    by_cases h2 : o.utf8ByteSize < 1
    · simp [h1, h2]
    · by_cases h3 : o.utf8ByteSize > 250
      · simp [h1, h2, h3]
      · simp [h1, h2, h3, hcl]

/-- Relay analogue of `claimNFT_after_claimed_err` for a signer caller. -/
theorem relayClaimNFT_after_claimed_err (w : World) (r t : Nat) (o : String)
    (tm : Nat) (hcl : isTokenClaimedCached w.claimedBitmapLow t = true) :
    relayClaimNFT w w.signer r t o tm =
      .error (if w.hasClaimed r then .AlreadyClaimed
        else if o.utf8ByteSize < 1 then .ObservationTooShort
        else if o.utf8ByteSize > 250 then .ObservationTooLong
        else .TokenNotAvailable) := by
  unfold relayClaimNFT
  by_cases h1 : w.hasClaimed r = true
  · simp [h1]
  · simp only [Bool.not_eq_true] at h1
    by_cases h2 : o.utf8ByteSize < 1
    · simp [h1, h2]
    · by_cases h3 : o.utf8ByteSize > 250
      · simp [h1, h2, h3]
      · simp [h1, h2, h3, hcl]

theorem relayClaimNFT_not_signer (w : World) (s r t : Nat) (o : String)
    (tm : Nat) (hs : s ≠ w.signer) :
    relayClaimNFT w s r t o tm = .error .OnlySignerAllowed := by
  unfold relayClaimNFT
  simp [hs]

/-- C1 claim sentence, first half: a successful claim at position `i` of a
trace rules out another successful claim of the same token later. -/
theorem claimed_at_most_once (w0 : World) (ops : List Op) (i j t : Nat)
    (hij : i < j) (hj : j < ops.length)
    (hi : claimSuccess (run w0 (ops.take i)) (ops.get ⟨i, Nat.lt_trans hij hj⟩) t) :
    ¬ claimSuccess (run w0 (ops.take j)) (ops.get ⟨j, hj⟩) t := by
  intro hjs
  have hpost : isTokenClaimedCached (run w0 (ops.take (i + 1))).claimedBitmapLow t = true := by
    rw [run_take_succ w0 ops i (Nat.lt_trans hij hj)]
    exact (claimSuccess_pre_post hi).2
  have hstate : isTokenClaimedCached (run w0 (ops.take j)).claimedBitmapLow t = true := by
    rw [take_decomp ops i j hij, run_append]
    exact run_claimedCached_mono _ _ _ hpost
  have hpre := (claimSuccess_pre_post hjs).1
  rw [hpre] at hstate
  cases hstate

/-- C2 claim sentence, first half: without an admin reset for `c`, the
`hasClaimed` flag of `c` rises at most once along any trace. -/
theorem hasClaimed_rises_once (w0 : World) (ops : List Op) (c : Nat)
    (hnr : ∀ op ∈ ops, isResetOf op c = false) (i j : Nat) (hij : i < j)
    (hi : risingAt w0 ops c i) : ¬ risingAt w0 ops c j := by
  intro hj
  have htrue : (run w0 (ops.take j)).hasClaimed c = true := by
    rw [take_decomp ops i j hij, run_append]
    refine run_hasClaimed_mono _ _ _ ?_ hi.2
    intro op hop
    exact hnr op (List.drop_subset _ _ (List.take_subset _ _ hop))
  rw [hj.1] at htrue
  cases htrue

/-- C1 (amended).  For every token `t`: (1) along any transaction trace at
most one claim (direct or relayed) of `t` ever succeeds, so the claimed bit
is set by at most one successful claim; (2) once the claimed bit of `t` is
set, every further `claimNFT` naming `t` reverts and changes nothing, and
the error is `TokenNotAvailable` whenever the earlier guards pass (caller
has not claimed, observation length in [1,250]); (3) likewise every further
`relayClaimNFT` naming `t` reverts and changes nothing, with
`TokenNotAvailable` when the caller is the signer and the earlier guards
pass.  (The original claim's "reverts with TokenNotAvailable" is corrected:
an earlier guard can fire first, e.g. `AlreadyClaimed`.) -/
theorem claim_C1_amended :
    (∀ (w0 : World) (ops : List Op) (i j t : Nat) (hij : i < j)
      (hj : j < ops.length),
      claimSuccess (run w0 (ops.take i)) (ops.get ⟨i, Nat.lt_trans hij hj⟩) t →
      ¬ claimSuccess (run w0 (ops.take j)) (ops.get ⟨j, hj⟩) t) ∧
    (∀ (w : World) (c t : Nat) (o : String) (sig : Sig) (tm : Nat),
      isTokenClaimedCached w.claimedBitmapLow t = true →
      (∃ e, claimNFT w c t o sig tm = .error e) ∧
      applyOp w (.claim c t o sig tm) = w ∧
      (w.hasClaimed c = false → 1 ≤ o.utf8ByteSize → o.utf8ByteSize ≤ 250 →
        claimNFT w c t o sig tm = .error .TokenNotAvailable)) ∧
    (∀ (w : World) (s r t : Nat) (o : String) (tm : Nat),
      isTokenClaimedCached w.claimedBitmapLow t = true →
      (∃ e, relayClaimNFT w s r t o tm = .error e) ∧
      applyOp w (.relayClaim s r t o tm) = w ∧
      (s = w.signer → w.hasClaimed r = false → 1 ≤ o.utf8ByteSize →
        o.utf8ByteSize ≤ 250 →
        relayClaimNFT w s r t o tm = .error .TokenNotAvailable)) := by
  refine ⟨claimed_at_most_once, ?_, ?_⟩
  · intro w c t o sig tm hcl
    have herr := claimNFT_after_claimed_err w c t o sig tm hcl
    refine ⟨⟨_, herr⟩, by simp [applyOp, step, herr], ?_⟩
    intro hfc hlo hhi
    rw [herr, hfc]
    simp only [Bool.false_eq_true, if_false]
    rw [if_neg (by omega), if_neg (by omega)]
  · intro w s r t o tm hcl
    by_cases hs : s = w.signer
    · subst hs
      have herr := relayClaimNFT_after_claimed_err w r t o tm hcl
      refine ⟨⟨_, herr⟩, by simp [applyOp, step, herr], ?_⟩
      intro _ hfc hlo hhi
      rw [herr, hfc]
      simp only [Bool.false_eq_true, if_false]
      rw [if_neg (by omega), if_neg (by omega)]
    · have herr := relayClaimNFT_not_signer w s r t o tm hs
      exact ⟨⟨_, herr⟩, by simp [applyOp, step, herr], fun he => absurd he hs⟩

/-- C1 counterexample: in `wCl` the claimed bit for token 5 is set and
claimant 8 has already claimed; a further `claimNFT` naming token 5 by 8
reverts with `AlreadyClaimed`, not `TokenNotAvailable` as the claim as
stated requires. -/
theorem claim_C1_counterexample :
    errOf (claimNFT wCl 8 5 "plenty of words" ⟨9, .withNonce 8 5 "plenty of words" 0⟩ 12)
      = some .AlreadyClaimed ∧
    (CErr.AlreadyClaimed ≠ CErr.TokenNotAvailable) := by
  constructor
  · rfl
  · decide

/-- Witness for `claim_C1_amended` at concrete inputs: the second claim of
token 5 in the trace `opsEx` cannot succeed, and a fresh claimant hitting a
claimed token gets exactly `TokenNotAvailable`. -/
theorem claim_C1_witness :
    (¬ claimSuccess (run wEx (opsEx.take 1)) (opsEx.get ⟨1, by decide⟩) 5) ∧
    claimNFT wCl 7 5 "some words here" ⟨9, .withNonce 7 5 "some words here" 0⟩ 12
      = .error .TokenNotAvailable := by
  constructor
  · exact claim_C1_amended.1 wEx opsEx 0 1 5 (by decide) (by decide) (by decide)
  · exact (claim_C1_amended.2.1 wCl 7 5 "some words here"
      ⟨9, .withNonce 7 5 "some words here" 0⟩ 12 (by decide)).2.2
      (by decide) (by decide) (by decide)

/-- C2 (amended).  (1) Without an admin `resetClaimStatus(c)` in the trace,
`hasClaimed[c]` rises from false to true at most once; (2) while it is
true, every `claimNFT` by `c` reverts with `AlreadyClaimed` and changes no
state; (3) while it is true, every `relayClaimNFT` by the signer naming `c`
reverts with `AlreadyClaimed` and changes no state; (4) a `relayClaimNFT`
by anyone else reverts with `OnlySignerAllowed` (and changes no state) —
this corrects the original claim, which asserted `AlreadyClaimed` for every
relay call naming `c`. -/
theorem claim_C2_amended :
    (∀ (w0 : World) (ops : List Op) (c : Nat),
      (∀ op ∈ ops, isResetOf op c = false) →
      ∀ i j, i < j → risingAt w0 ops c i → ¬ risingAt w0 ops c j) ∧
    (∀ (w : World) (c t : Nat) (o : String) (sig : Sig) (tm : Nat),
      w.hasClaimed c = true →
      claimNFT w c t o sig tm = .error .AlreadyClaimed ∧
      applyOp w (.claim c t o sig tm) = w) ∧
    (∀ (w : World) (r t : Nat) (o : String) (tm : Nat),
      w.hasClaimed r = true →
      relayClaimNFT w w.signer r t o tm = .error .AlreadyClaimed ∧
      applyOp w (.relayClaim w.signer r t o tm) = w) ∧
    (∀ (w : World) (s r t : Nat) (o : String) (tm : Nat),
      s ≠ w.signer →
      relayClaimNFT w s r t o tm = .error .OnlySignerAllowed ∧
      applyOp w (.relayClaim s r t o tm) = w) := by
  refine ⟨fun w0 ops c hnr i j hij => hasClaimed_rises_once w0 ops c hnr i j hij,
    ?_, ?_, ?_⟩
  · intro w c t o sig tm hc
    have herr : claimNFT w c t o sig tm = .error .AlreadyClaimed := by
      unfold claimNFT
      simp [hc]
    exact ⟨herr, by simp [applyOp, step, herr]⟩
  · intro w r t o tm hc
    have herr : relayClaimNFT w w.signer r t o tm = .error .AlreadyClaimed := by
      unfold relayClaimNFT
      simp [hc]
    exact ⟨herr, by simp [applyOp, step, herr]⟩
  · intro w s r t o tm hs
    have herr := relayClaimNFT_not_signer w s r t o tm hs
    exact ⟨herr, by simp [applyOp, step, herr]⟩

/-- C2 counterexample: claimant 8 has `hasClaimed` set in `wCl`, yet a
`relayClaimNFT` naming 8 from a non-signer caller (address 3) reverts with
`OnlySignerAllowed`, not `AlreadyClaimed` as the claim as stated requires. -/
theorem claim_C2_counterexample :
    errOf (relayClaimNFT wCl 3 8 5 "plenty of words" 12) = some .OnlySignerAllowed ∧
    (CErr.OnlySignerAllowed ≠ CErr.AlreadyClaimed) := by
  constructor
  · rfl
  · decide

/-- Witness for `claim_C2_amended` at concrete inputs: in the reset-free
trace `opsEx`, the flag of claimant 7 cannot rise a second time, and a
direct claim by the already-served claimant 8 gets `AlreadyClaimed`. -/
theorem claim_C2_witness :
    (¬ risingAt wEx opsEx 7 1) ∧
    claimNFT wCl 8 6 "plenty of words" ⟨9, .withNonce 8 6 "plenty of words" 0⟩ 12
      = .error .AlreadyClaimed := by
  constructor
  · exact claim_C2_amended.1 wEx opsEx 7 (by decide) 0 1 (by decide) (by decide)
  · exact (claim_C2_amended.2.1 wCl 8 6 "plenty of words"
      ⟨9, .withNonce 8 6 "plenty of words" 0⟩ 12 (by decide)).1

/-! Guardian map lemmas. -/

theorem mapGet_mapSet_self (m : GuardianMap) (ip : String) (r : GuardianRecord) :
    mapGet (mapSet m ip r) ip = some r := by
  induction m with
  | nil => simp [mapGet, mapSet, List.find?]
  | cons p rest ih =>
    by_cases hp : p.1 == ip
    · simp [mapSet, hp, mapGet, List.find?]
    · simp only [mapSet, hp, Bool.false_eq_true, if_false]
      simpa [mapGet, List.find?, hp] using ih

theorem mapGet_mapDelete_self (m : GuardianMap) (ip : String) :
    mapGet (mapDelete m ip) ip = none := by
  induction m with
  | nil => rfl
  | cons p rest ih =>
    show mapGet (List.filter (fun q => q.1 != ip) (p :: rest)) ip = none
    by_cases hp : p.1 == ip
    · have hb : (p.1 != ip) = false := by simp [bne, hp]
      rw [List.filter_cons]
      simp only [hb, Bool.false_eq_true, if_false]
      exact ih
    · have hb : (p.1 != ip) = true := by simp [bne, hp]
      rw [List.filter_cons]
      simp only [hb, if_true]
      unfold mapGet
      rw [List.find?_cons_of_neg _ (by simpa using hp)]
      exact ih

theorem checkGuardianBlock_none {m : GuardianMap} {ip : String} (now : Nat)
    (h : mapGet m ip = none) :
    checkGuardianBlock m ip now = (.notBlocked none, m) := by
  unfold checkGuardianBlock
  rw [h]

theorem checkGuardianBlock_count {m : GuardianMap} {ip : String} {c : Nat}
    (now : Nat) (h : mapGet m ip = some ⟨c, none⟩) :
    checkGuardianBlock m ip now = (.notBlocked (some c), m) := by
  unfold checkGuardianBlock
  rw [h]

theorem checkGuardianBlock_blocked {m : GuardianMap} {ip : String}
    {c bu : Nat} {now : Nat} (h : mapGet m ip = some ⟨c, some bu⟩)
    (hnow : now < bu) :
    checkGuardianBlock m ip now = (.blocked ((bu - now + 59999) / 60000), m) := by
  unfold checkGuardianBlock
  rw [h]
  simp [hnow]

theorem recordGuardianFailure_fresh {m : GuardianMap} {ip : String}
    (now : Nat) (h : mapGet m ip = none) :
    recordGuardianFailure m ip now = (⟨1, none⟩, mapSet m ip ⟨1, none⟩) := by
  unfold recordGuardianFailure
  rw [h]
  rfl

theorem recordGuardianFailure_second {m : GuardianMap} {ip : String}
    (now : Nat) (h : mapGet m ip = some ⟨1, none⟩) :
    recordGuardianFailure m ip now = (⟨2, none⟩, mapSet m ip ⟨2, none⟩) := by
  unfold recordGuardianFailure
  rw [h]
  rfl

theorem recordGuardianFailure_third {m : GuardianMap} {ip : String}
    (now : Nat) (h : mapGet m ip = some ⟨2, none⟩) :
    recordGuardianFailure m ip now =
      (⟨3, some (now + 3600000)⟩, mapSet m ip ⟨3, some (now + 3600000)⟩) := by
  unfold recordGuardianFailure
  rw [h]
  rfl

/-! Route branch lemmas: how `POST /api/submit-observation` resolves once
the gate and validation phases are fixed. -/

theorem submitObservation_gate_blocked (signerKey : Nat) {m : GuardianMap}
    {ip : String} {now c bu : Nat} (av : Bool) (address : Nat)
    (observation : String) (tokenId : Option Nat) (hcv tav : Bool)
    (ev : Evaluation) (rel : Except String String)
    (h : mapGet m ip = some ⟨c, some bu⟩) (hnow : now < bu) :
    submitObservation signerKey m ip now av address observation tokenId hcv
      tav ev rel =
      ⟨.gateBlocked ((bu - now + 59999) / 60000), m, false⟩ := by
  unfold submitObservation
  rw [checkGuardianBlock_blocked h hnow]

theorem submitObservation_soft (signerKey : Nat) {m : GuardianMap}
    {ip : String} {now : Nat} {fc : Option Nat} (address : Nat)
    {observation : String} (tokenId : Option Nat) {tav : Bool}
    {ev : Evaluation} (rel : Except String String)
    (hgate : checkGuardianBlock m ip now = (.notBlocked fc, m))
    (hlen1 : 10 ≤ (jsTrim observation).length)
    (hlen2 : (jsTrim observation).length ≤ 250)
    (hta : (tokenId.isSome && !tav) = false)
    (hap : ev.approved = false) (hsr : ev.softReject = true) :
    submitObservation signerKey m ip now true address observation tokenId
      false tav ev rel =
      ⟨.softRejected ev (facilitationMessage ev.facilitatorQuestion), m, true⟩ := by
  unfold submitObservation
  rw [hgate]
  have h10 : ¬((jsTrim observation).length < 10) := by omega
  have h250 : ¬((jsTrim observation).length > 250) := by omega
  simp [h10, h250, hta, hap, hsr]

theorem submitObservation_hard (signerKey : Nat) {m : GuardianMap}
    {ip : String} {now : Nat} {fc : Option Nat} (address : Nat)
    {observation : String} (tokenId : Option Nat) {tav : Bool}
    {ev : Evaluation} (rel : Except String String)
    (hgate : checkGuardianBlock m ip now = (.notBlocked fc, m))
    (hlen1 : 10 ≤ (jsTrim observation).length)
    (hlen2 : (jsTrim observation).length ≤ 250)
    (hta : (tokenId.isSome && !tav) = false)
    (hap : ev.approved = false) (hsr : ev.softReject = false) :
    submitObservation signerKey m ip now true address observation tokenId
      false tav ev rel =
      ⟨.hardRejected ev (3 - (recordGuardianFailure m ip now).1.count)
        (recordGuardianFailure m ip now).1.blockedUntil.isSome,
       (recordGuardianFailure m ip now).2, true⟩ := by
  unfold submitObservation
  rw [hgate]
  have h10 : ¬((jsTrim observation).length < 10) := by omega
  have h250 : ¬((jsTrim observation).length > 250) := by omega
  simp [h10, h250, hta, hap, hsr]

theorem submitObservation_approved (signerKey : Nat) {m : GuardianMap}
    {ip : String} {now : Nat} {fc : Option Nat} (address : Nat)
    {observation : String} (tokenId : Option Nat) {tav : Bool}
    {ev : Evaluation} (rel : Except String String)
    (hgate : checkGuardianBlock m ip now = (.notBlocked fc, m))
    (hlen1 : 10 ≤ (jsTrim observation).length)
    (hlen2 : (jsTrim observation).length ≤ 250)
    (hta : (tokenId.isSome && !tav) = false)
    (hap : ev.approved = true) :
    (submitObservation signerKey m ip now true address observation tokenId
      false tav ev rel).gmap = resetGuardianFailures m ip ∧
    (submitObservation signerKey m ip now true address observation tokenId
      false tav ev rel).evaluatorInvoked = true := by
  unfold submitObservation
  rw [hgate]
  have h10 : ¬((jsTrim observation).length < 10) := by omega
  have h250 : ¬((jsTrim observation).length > 250) := by omega
  cases rel <;> simp [h10, h250, hta, hap]

/-- C3 (amended).  (1) A successful direct-path `claimNFT` by `s` sets the
nonce of `s` to `(previous + 1) % 2^256` — the write sits in an `unchecked`
block and wraps — which equals the previous value plus exactly one in every
state where the nonce is below `2^256 - 1` (the wrap is reachable only
through the owner's `resetNonce` override); in the effect trace the nonce
write strictly precedes the external NFT transfer; (2) a signature by the
trusted signer over a message carrying a stale nonce `n ≠ nonces[s]` is
rejected with `InvalidSignature` even when every other guard passes; (3)
resubmitting a consumed request verbatim (same token, text and signature)
fails. -/
theorem claim_C3_amended :
    (∀ (w : World) (s t : Nat) (o : String) (sig : Sig) (tm : Nat)
      (w' : World) (fx : List Effect),
      claimNFT w s t o sig tm = .ok (w', fx) →
      w'.nonces s = (w.nonces s + 1) % 2 ^ 256 ∧
      (w.nonces s < 2 ^ 256 - 1 → w'.nonces s = w.nonces s + 1) ∧
      ∃ i j : Nat, i < j ∧
        fx[i]? = some (Effect.nonceSet s ((w.nonces s + 1) % 2 ^ 256)) ∧
        fx[j]? = some (Effect.nftTransfer w.self s t)) ∧
    (∀ (w : World) (s t n : Nat) (o : String) (tm : Nat),
      w.hasClaimed s = false → 1 ≤ o.utf8ByteSize → o.utf8ByteSize ≤ 250 →
      isTokenClaimedCached w.claimedBitmapLow t = false →
      isTokenDepositedCached w.depositedBitmapLow t = true →
      w.owners t = some w.self →
      n ≠ w.nonces s →
      claimNFT w s t o ⟨w.signer, .withNonce s t o n⟩ tm
        = .error .InvalidSignature) ∧
    (∀ (w : World) (s t : Nat) (o : String) (sig : Sig) (tm tm2 : Nat)
      (w' : World) (fx : List Effect),
      claimNFT w s t o sig tm = .ok (w', fx) →
      claimNFT w' s t o sig tm2 = .error .AlreadyClaimed) := by
  refine ⟨?_, ?_, ?_⟩
  · intro w s t o sig tm w' fx h
    obtain ⟨_, _, _, _, h5, _, h7⟩ := claimNFT_ok_inv h
    have hwrap : w'.nonces s = (w.nonces s + 1) % 2 ^ 256 := by
      rw [h5]
      simp
    refine ⟨hwrap, ?_, 0, 3, by omega, by simp [h7], by simp [h7]⟩
    intro hlt
    rw [hwrap]
    exact Nat.mod_eq_of_lt (by omega)
  · intro w s t n o tm hfc hlo hhi hcl hdep hown hn
    have hsv : sigValid ⟨w.signer, .withNonce s t o n⟩
        (.withNonce s t o (w.nonces s)) w.signer = false := by
      simp [sigValid, hn]
    unfold claimNFT
    rw [if_neg (by simp [hfc]), if_neg (by omega), if_neg (by omega),
      if_neg (by simp [hcl, hdep])]
    simp [hown, hsv]
  · intro w s t o sig tm tm2 w' fx h
    obtain ⟨_, _, _, h4, _⟩ := claimNFT_ok_inv h
    unfold claimNFT
    rw [if_pos (by rw [h4]; simp)]

/-- C3 counterexample: with claimant 7's nonce forced to `2^256 - 1` by the
admin override, a successful claim stores nonce 0, not the previous value
plus one — the unchecked increment wraps. -/
theorem claim_C3_counterexample :
    (okWorld (claimNFT wNonceMax 7 5 "hello"
      ⟨9, .withNonce 7 5 "hello" (2 ^ 256 - 1)⟩ 10)).map (fun w => w.nonces 7)
      = some 0 ∧
    (0 : Nat) ≠ 2 ^ 256 - 1 + 1 := by
  constructor
  · rfl
  · decide

/-- Witness for `claim_C3_amended` at concrete inputs: claimant 7's nonce
goes from 0 to 1 on the successful claim of token 5 in `wEx`, and a signer
signature over the stale nonce 3 is rejected. -/
theorem claim_C3_witness :
    (okWorld (claimNFT wEx 7 5 "hello" sigEx 10)).map (fun w => w.nonces 7)
      = some 1 ∧
    errOf (claimNFT wEx 7 5 "hello" ⟨9, .withNonce 7 5 "hello" 3⟩ 10)
      = some .InvalidSignature := by
  constructor
  · rcases hcall : claimNFT wEx 7 5 "hello" sigEx 10 with e | ⟨w', fx⟩
    · have hnone : errOf (claimNFT wEx 7 5 "hello" sigEx 10) = none := by decide
      rw [hcall] at hnone
      cases hnone
    · have hn := (claim_C3_amended.1 wEx 7 5 "hello" sigEx 10 w' fx hcall).2.1
        (by decide)
      simp [okWorld, hn, wEx]
  · have h := claim_C3_amended.2.1 wEx 7 5 3 "hello" 10 (by decide) (by decide)
      (by decide) (by decide) (by decide) (by decide) (by decide)
    show errOf (claimNFT wEx 7 5 "hello" ⟨wEx.signer, .withNonce 7 5 "hello" 3⟩ 10)
      = some CErr.InvalidSignature
    rw [h]
    rfl

/-- C4.  Starting from an origin with no failure record: three consecutive
hard rejections leave the record at count 3 with a block expiring exactly
one hour (3 600 000 ms) after the third rejection; while that block is
unexpired, any further submit-observation request is rejected at the gate
with at least one remaining minute, the evaluator is not invoked, and the
map is unchanged; and an approved submission (from any gate-passing state)
deletes the origin's failure record. -/
theorem claim_C4 (signerKey : Nat) (m0 : GuardianMap) (ip : String)
    (now1 now2 now3 now4 : Nat) (address : Nat) (observation : String)
    (tokenId : Option Nat) (tav : Bool) (ev1 ev2 ev3 : Evaluation)
    (rel : Except String String)
    (hm0 : mapGet m0 ip = none)
    (hlen1 : 10 ≤ (jsTrim observation).length)
    (hlen2 : (jsTrim observation).length ≤ 250)
    (hta : (tokenId.isSome && !tav) = false)
    (h1a : ev1.approved = false) (h1s : ev1.softReject = false)
    (h2a : ev2.approved = false) (h2s : ev2.softReject = false)
    (h3a : ev3.approved = false) (h3s : ev3.softReject = false) :
    let r1 := submitObservation signerKey m0 ip now1 true address observation
      tokenId false tav ev1 rel
    let r2 := submitObservation signerKey r1.gmap ip now2 true address
      observation tokenId false tav ev2 rel
    let r3 := submitObservation signerKey r2.gmap ip now3 true address
      observation tokenId false tav ev3 rel
    mapGet r3.gmap ip = some ⟨3, some (now3 + 3600000)⟩ ∧
    (now4 < now3 + 3600000 →
      ∀ (ev4 : Evaluation) (rel4 : Except String String),
        submitObservation signerKey r3.gmap ip now4 true address observation
          tokenId false tav ev4 rel4 =
          ⟨.gateBlocked ((now3 + 3600000 - now4 + 59999) / 60000), r3.gmap, false⟩ ∧
        1 ≤ (now3 + 3600000 - now4 + 59999) / 60000) ∧
    (∀ (m : GuardianMap) (now : Nat) (ev : Evaluation)
      (relx : Except String String),
      (mapGet m ip = none ∨ ∃ c, mapGet m ip = some ⟨c, none⟩) →
      ev.approved = true →
      mapGet (submitObservation signerKey m ip now true address observation
        tokenId false tav ev relx).gmap ip = none) := by
  intro r1 r2 r3
  have hr1 : r1 = ⟨.hardRejected ev1 (3 - 1) false, mapSet m0 ip ⟨1, none⟩, true⟩ := by
    show submitObservation signerKey m0 ip now1 true address observation
      tokenId false tav ev1 rel = _
    rw [submitObservation_hard signerKey address tokenId rel
      (checkGuardianBlock_none now1 hm0) hlen1 hlen2 hta h1a h1s,
      recordGuardianFailure_fresh now1 hm0]
    rfl
  have hm1 : mapGet r1.gmap ip = some ⟨1, none⟩ := by
    rw [hr1]
    exact mapGet_mapSet_self m0 ip ⟨1, none⟩
  have hr2 : r2 = ⟨.hardRejected ev2 (3 - 2) false, mapSet r1.gmap ip ⟨2, none⟩, true⟩ := by
    show submitObservation signerKey r1.gmap ip now2 true address observation
      tokenId false tav ev2 rel = _
    rw [submitObservation_hard signerKey address tokenId rel
      (checkGuardianBlock_count now2 hm1) hlen1 hlen2 hta h2a h2s,
      recordGuardianFailure_second now2 hm1]
    rfl
  have hm2 : mapGet r2.gmap ip = some ⟨2, none⟩ := by
    rw [hr2]
    exact mapGet_mapSet_self _ ip ⟨2, none⟩
  have hr3 : r3 = ⟨.hardRejected ev3 (3 - 3) true,
      mapSet r2.gmap ip ⟨3, some (now3 + 3600000)⟩, true⟩ := by
    show submitObservation signerKey r2.gmap ip now3 true address observation
      tokenId false tav ev3 rel = _
    rw [submitObservation_hard signerKey address tokenId rel
      (checkGuardianBlock_count now3 hm2) hlen1 hlen2 hta h3a h3s,
      recordGuardianFailure_third now3 hm2]
    rfl
  have hm3 : mapGet r3.gmap ip = some ⟨3, some (now3 + 3600000)⟩ := by
    rw [hr3]
    exact mapGet_mapSet_self _ ip _
  refine ⟨hm3, ?_, ?_⟩
  · intro hnow ev4 rel4
    refine ⟨submitObservation_gate_blocked signerKey true address observation
      tokenId false tav ev4 rel4 hm3 hnow, ?_⟩
    rw [Nat.le_div_iff_mul_le (by norm_num)]
    omega
  · intro m now ev relx hgate hap
    have hg : ∃ fc, checkGuardianBlock m ip now = (.notBlocked fc, m) := by
      rcases hgate with hnone | ⟨c, hc⟩
      · exact ⟨none, checkGuardianBlock_none now hnone⟩
      · exact ⟨some c, checkGuardianBlock_count now hc⟩
    obtain ⟨fc, hg⟩ := hg
    rw [(submitObservation_approved signerKey address tokenId relx hg hlen1
      hlen2 hta hap).1]
    exact mapGet_mapDelete_self m ip

/-- Witness for `claim_C4` on the concrete chain `c4r1`–`c4r4`: three hard
rejections from the fresh origin "1.2.3.4" at times 0, 1, 2 block it until
3 600 002; the fourth request at time 3 is gate-rejected with 60 minutes
remaining and the evaluator not invoked; and an approved submission from a
fresh map leaves no record. -/
theorem claim_C4_witness :
    mapGet c4r3.gmap "1.2.3.4" = some ⟨3, some 3600002⟩ ∧
    c4r4 = ⟨.gateBlocked 60, c4r3.gmap, false⟩ ∧
    mapGet (submitObservation 9 [] "1.2.3.4" 50 true 7 "a genuine observation"
      (some 5) false true ⟨true, false, none, "Strong seeing.", 8⟩
      (.ok "0x1")).gmap "1.2.3.4" = none := by
  have h := claim_C4 9 [] "1.2.3.4" 0 1 2 3 7 "a genuine observation" (some 5)
    true hardEvalEx hardEvalEx hardEvalEx (.ok "0x1") (by decide) (by decide)
    (by decide) (by decide) (by decide) (by decide) (by decide) (by decide)
    (by decide) (by decide)
  refine ⟨h.1, ?_, ?_⟩
  · have h4 := (h.2.1 (by decide) hardEvalEx (.ok "0x1")).1
    exact h4
  · exact h.2.2 [] 50 ⟨true, false, none, "Strong seeing.", 8⟩ (.ok "0x1")
      (Or.inl (by decide)) (by decide)

/-- C5.  A soft rejection (evaluator outcome with `softReject` true) never
touches the Trust Gate failure map: the route answers with the facilitation
message built from the follow-up question and returns the map unchanged;
consequently any number `k` of consecutive soft rejections from a fresh
origin (in particular 10) leaves the map unchanged and the origin
unblocked. -/
theorem claim_C5 (signerKey : Nat) (m : GuardianMap) (ip : String)
    (now address : Nat) (observation : String) (tokenId : Option Nat)
    (tav : Bool) (ev : Evaluation) (rel : Except String String)
    (hm : mapGet m ip = none)
    (hlen1 : 10 ≤ (jsTrim observation).length)
    (hlen2 : (jsTrim observation).length ≤ 250)
    (hta : (tokenId.isSome && !tav) = false)
    (hap : ev.approved = false) (hsr : ev.softReject = true) :
    submitObservation signerKey m ip now true address observation tokenId
      false tav ev rel =
      ⟨.softRejected ev (facilitationMessage ev.facilitatorQuestion), m, true⟩ ∧
    (∀ k, softIter signerKey ip now address observation tokenId tav ev rel m k = m) ∧
    (∀ k now2, (checkGuardianBlock
      (softIter signerKey ip now address observation tokenId tav ev rel m k)
      ip now2).1 = .notBlocked none) := by
  have hone : submitObservation signerKey m ip now true address observation
      tokenId false tav ev rel =
      ⟨.softRejected ev (facilitationMessage ev.facilitatorQuestion), m, true⟩ :=
    submitObservation_soft signerKey address tokenId rel
      (checkGuardianBlock_none now hm) hlen1 hlen2 hta hap hsr
  have hiter : ∀ k, softIter signerKey ip now address observation tokenId tav
      ev rel m k = m := by
    intro k
    induction k with
    | zero => rfl
    | succ k ih =>
      show (submitObservation signerKey
        (softIter signerKey ip now address observation tokenId tav ev rel m k)
        ip now true address observation tokenId false tav ev rel).gmap = m
      rw [ih, hone]
  refine ⟨hone, hiter, ?_⟩
  intro k now2
  rw [hiter k, checkGuardianBlock_none now2 hm]

/-- Witness for `claim_C5`: a concrete soft rejection from the fresh origin
"5.6.7.8" answers with the facilitator question and leaves the map empty;
ten consecutive soft rejections leave the origin unblocked. -/
theorem claim_C5_witness :
    submitObservation 9 [] "5.6.7.8" 0 true 7 "a genuine observation" (some 5)
      false true softEvalEx (.ok "0x1") =
      ⟨.softRejected softEvalEx
        "The Guardian senses potential in your words. What colors or shapes draw your eye first?",
       [], true⟩ ∧
    softIter 9 "5.6.7.8" 0 7 "a genuine observation" (some 5) true softEvalEx
      (.ok "0x1") [] 10 = [] ∧
    (checkGuardianBlock (softIter 9 "5.6.7.8" 0 7 "a genuine observation"
      (some 5) true softEvalEx (.ok "0x1") [] 10) "5.6.7.8" 99).1
      = .notBlocked none := by
  have h := claim_C5 9 [] "5.6.7.8" 0 7 "a genuine observation" (some 5) true
    softEvalEx (.ok "0x1") (by decide) (by decide) (by decide) (by decide)
    (by decide) (by decide)
  exact ⟨h.1, h.2.1 10, h.2.2 10 99⟩

/-- C8 (amended).  When the evaluator is unavailable (both the scoring call
and its fallback error), the route rejects with the distinct "momentarily
unavailable" message, but — contrary to the original claim — the outcome
flows through the hard-rejection branch and IS counted against the origin's
Trust Gate failure counter: from a fresh origin the count becomes 1. -/
theorem claim_C8_amended (signerKey : Nat) (m : GuardianMap) (ip : String)
    (now address : Nat) (observation : String) (tokenId : Option Nat)
    (tav : Bool) (rel : Except String String)
    (hm : mapGet m ip = none)
    (hlen1 : 10 ≤ (jsTrim observation).length)
    (hlen2 : (jsTrim observation).length ≤ 250)
    (hta : (tokenId.isSome && !tav) = false) :
    submitObservation signerKey m ip now true address observation tokenId
      false tav evalUnavailableResult rel =
      ⟨.hardRejected evalUnavailableResult 2 false, mapSet m ip ⟨1, none⟩, true⟩ ∧
    mapGet (submitObservation signerKey m ip now true address observation
      tokenId false tav evalUnavailableResult rel).gmap ip = some ⟨1, none⟩ ∧
    evalUnavailableResult.reason
      = "The Guardian is momentarily unavailable. Please try again." := by
  have hone : submitObservation signerKey m ip now true address observation
      tokenId false tav evalUnavailableResult rel =
      ⟨.hardRejected evalUnavailableResult 2 false, mapSet m ip ⟨1, none⟩, true⟩ := by
    rw [submitObservation_hard signerKey address tokenId rel
      (checkGuardianBlock_none now hm) hlen1 hlen2 hta rfl rfl,
      recordGuardianFailure_fresh now hm]
    rfl
  refine ⟨hone, ?_, rfl⟩
  rw [hone]
  exact mapGet_mapSet_self m ip ⟨1, none⟩

/-- C8 counterexample: with the evaluator unavailable, a submission from
the fresh origin "9.9.9.9" leaves a failure record with count 1 — the
failure IS counted against the origin, refuting the claim that it is not. -/
theorem claim_C8_counterexample :
    mapGet (submitObservation 9 [] "9.9.9.9" 0 true 7 "a genuine observation"
      (some 5) false true evalUnavailableResult (.ok "0x1")).gmap "9.9.9.9"
      = some ⟨1, none⟩ := by
  decide

/-- Witness for `claim_C8_amended` at concrete inputs. -/
theorem claim_C8_witness :
    submitObservation 9 [] "8.8.8.8" 4 true 7 "a genuine observation"
      (some 5) false true evalUnavailableResult (.error "boom") =
      ⟨.hardRejected evalUnavailableResult 2 false,
       [("8.8.8.8", ⟨1, none⟩)], true⟩ := by
  have h := claim_C8_amended 9 [] "8.8.8.8" 4 7 "a genuine observation"
    (some 5) true (.error "boom") (by decide) (by decide) (by decide)
    (by decide)
  exact h.1

theorem relayGasLimit_margin (est : Nat) :
    relayGasLimit est = est + est * 20 / 100 := by
  unfold relayGasLimit
  have h : est * 120 = 100 * est + est * 20 := by ring
  rw [h, Nat.mul_add_div (by norm_num)]

/-- C6 (amended).  The relay executor submits with gas limit
`⌊estimate · 120 / 100⌋ = estimate + ⌊estimate · 20 / 100⌋` (the 20%
margin); a non-recoverable first error (already claimed / token not
available / insufficient funds) aborts at once with no delay and no further
attempt; three recoverable failures exhaust the bound of 3 attempts with
backoff delays of 2 s then 4 s — the 8 s value of the `2^attempt` formula
is never waited, because no delay follows the final attempt (this corrects
the original "(2s, 4s, 8s)") — and raise the last error; and a success on
the third attempt happens after exactly those two delays. -/
theorem claim_C6_amended (oracle : Nat → AttemptOutcome) (est : Nat)
    (txh m1 m2 m3 : String) :
    (oracle 1 = .works est txh →
      executeRelayClaim oracle 3
        = ([.submitted (est + est * 20 / 100) txh], .ok txh)) ∧
    (oracle 1 = .fails m1 → isNonRecoverableError m1 = true →
      executeRelayClaim oracle 3 = ([], .error m1)) ∧
    (oracle 1 = .fails m1 → oracle 2 = .fails m2 → oracle 3 = .fails m3 →
      isNonRecoverableError m1 = false → isNonRecoverableError m2 = false →
      isNonRecoverableError m3 = false →
      executeRelayClaim oracle 3
        = ([.delayed 2000, .delayed 4000], .error m3)) ∧
    (oracle 1 = .fails m1 → oracle 2 = .fails m2 → oracle 3 = .works est txh →
      isNonRecoverableError m1 = false → isNonRecoverableError m2 = false →
      executeRelayClaim oracle 3
        = ([.delayed 2000, .delayed 4000,
            .submitted (est + est * 20 / 100) txh], .ok txh)) := by
  refine ⟨?_, ?_, ?_, ?_⟩
  · intro h1
    show executeRelayAttempts oracle 1 3 = _
    unfold executeRelayAttempts
    rw [h1]
    simp [relayGasLimit_margin]
  · intro h1 hnr
    show executeRelayAttempts oracle 1 3 = _
    unfold executeRelayAttempts
    rw [h1]
    simp [hnr]
  · intro h1 h2 h3 hr1 hr2 hr3
    show executeRelayAttempts oracle 1 3 = _
    unfold executeRelayAttempts
    rw [h1]
    simp only [hr1, Bool.false_eq_true, if_false, if_pos (by omega : (2:Nat) > 0)]
    unfold executeRelayAttempts
    rw [h2]
    simp only [hr2, Bool.false_eq_true, if_false, if_pos (by omega : (1:Nat) > 0)]
    unfold executeRelayAttempts
    rw [h3]
    simp [hr3]
  · intro h1 h2 h3 hr1 hr2
    show executeRelayAttempts oracle 1 3 = _
    unfold executeRelayAttempts
    rw [h1]
    simp only [hr1, Bool.false_eq_true, if_false, if_pos (by omega : (2:Nat) > 0)]
    unfold executeRelayAttempts
    rw [h2]
    simp only [hr2, Bool.false_eq_true, if_false, if_pos (by omega : (1:Nat) > 0)]
    unfold executeRelayAttempts
    rw [h3]
    simp [relayGasLimit_margin]

/-- C6 counterexample: a run in which every attempt fails with a
recoverable error performs exactly the delays 2 s and 4 s — not the
(2s, 4s, 8s) schedule asserted by the claim. -/
theorem claim_C6_counterexample :
    (executeRelayClaim (fun _ => .fails "connection reset") 3).1
      = [.delayed 2000, .delayed 4000] ∧
    (executeRelayClaim (fun _ => .fails "connection reset") 3).1
      ≠ [.delayed 2000, .delayed 4000, .delayed 8000] := by
  constructor
  · rfl
  · decide

/-- Witness for `claim_C6_amended` on the concrete oracle `oracleEx`
(recoverable failures on attempts 1 and 2, success on attempt 3 with an
estimate of 100 000 gas, submitted as 120 000). -/
theorem claim_C6_witness :
    executeRelayClaim oracleEx 3
      = ([.delayed 2000, .delayed 4000, .submitted 120000 "0xdead"],
         .ok "0xdead") := by
  have h := (claim_C6_amended oracleEx 100000 "0xdead" "network timeout"
    "network timeout" "network timeout").2.2.2 (by decide) (by decide)
    (by decide) (by decide) (by decide)
  exact h

/-- C7 (code bug).  The fallback authorization artifact produced by
`generateClaimSignature` signs the message `(address, tokenId, observation)`
without the claimant's nonce, while the deployed `claimNFT` verifies a hash
over `(msg.sender, tokenId, observation, currentNonce)`: in the state `wEx`
(fresh claimant 7, nonce 0, token 5 available) the artifact is rejected
with `InvalidSignature`, whereas a signer signature over the nonce-bearing
message for the very same request succeeds.  The emitted artifact can
therefore never complete the transfer through the direct path. -/
theorem claim_C7_bug :
    errOf (claimNFT wEx 7 5 "hello" (generateClaimSignature 9 7 5 "hello") 10)
      = some .InvalidSignature ∧
    errOf (claimNFT wEx 7 5 "hello" ⟨9, .withNonce 7 5 "hello" 0⟩ 10) = none := by
  constructor
  · rfl
  · rfl

/-! Observation-ledger replay lemmas (C9). -/

theorem cacheGet_append (acc : List (Nat × ClaimEvent)) (tid : Nat)
    (ev : ClaimEvent) (t : Nat) :
    cacheGet (acc ++ [(tid, ev)]) t =
      (match cacheGet acc t with
       | some v => some v
       | none => if tid == t then some ev else none) := by
  unfold cacheGet
  rw [List.find?_append]
  cases hfind : acc.find? (fun p => p.1 == t) with
  | some p => simp
  | none =>
    simp only [Option.none_or]
    by_cases ht : tid == t
    · simp [List.find?, ht]
    · simp [List.find?, ht]

theorem fetch_go (events : List ClaimEvent) :
    ∀ (acc : List (Nat × ClaimEvent)) (t : Nat),
    cacheGet (events.foldl
      (fun cache ev =>
        if (cacheGet cache ev.tokenId).isSome then cache
        else cache ++ [(ev.tokenId, ev)]) acc) t =
      (match cacheGet acc t with
       | some v => some v
       | none => events.find? (fun e => e.tokenId == t)) := by
  induction events with
  | nil =>
    intro acc t
    rw [List.foldl_nil]
    cases h : cacheGet acc t <;> simp [List.find?]
  | cons ev rest ih =>
    intro acc t
    rw [List.foldl_cons]
    by_cases hmem : (cacheGet acc ev.tokenId).isSome
    · rw [if_pos hmem, ih acc t]
      cases hacc : cacheGet acc t with
      | some v => rfl
      | none =>
        have hne : (ev.tokenId == t) = false := by
          by_contra hc
          simp only [Bool.not_eq_false, beq_iff_eq] at hc
          rw [hc] at hmem
          rw [hacc] at hmem
          cases hmem
        simp [List.find?, hne]
    · rw [if_neg hmem, ih (acc ++ [(ev.tokenId, ev)]) t, cacheGet_append]
      cases hacc : cacheGet acc t with
      | some v => rfl
      | none =>
        by_cases ht : ev.tokenId == t
        · simp [List.find?, ht]
        · simp [List.find?, ht]

/-- C9 (amended).  (1) The observable text reconstructed by replaying the
event history from genesis always equals the first `NFTClaimed` event for
that token — later events never override it; (2) contrary to the original
claim, a second `addObservation` call for a token that already has an
observation does NOT fail: both calls succeed and append events, the
one-observation invariant being enforced only at read time by the
first-wins replay, so the observable text still equals the first
submission. -/
theorem claim_C9_amended :
    (∀ (events : List ClaimEvent) (t : Nat),
      cacheGet (fetchObservationsFromEvents events) t
        = events.find? (fun e => e.tokenId == t)) ∧
    (∀ (w : World) (sender t : Nat) (o1 o2 : String) (t1 t2 : Nat),
      w.owners t = some sender →
      1 ≤ o1.utf8ByteSize → o1.utf8ByteSize ≤ 250 →
      1 ≤ o2.utf8ByteSize → o2.utf8ByteSize ≤ 250 →
      ∃ w2, addObservationTwice w sender t o1 o2 t1 t2 = .ok w2 ∧
        w2.events = w.events ++ [⟨sender, t, o1, t1⟩, ⟨sender, t, o2, t2⟩] ∧
        (w.events.find? (fun e => e.tokenId == t) = none →
          (cacheGet (fetchObservationsFromEvents w2.events) t).map
            (fun e => e.observation) = some o1)) := by
  have hfirst : ∀ (events : List ClaimEvent) (t : Nat),
      cacheGet (fetchObservationsFromEvents events) t
        = events.find? (fun e => e.tokenId == t) := by
    intro events t
    unfold fetchObservationsFromEvents
    rw [fetch_go events [] t]
    rfl
  refine ⟨hfirst, ?_⟩
  intro w sender t o1 o2 t1 t2 hown hlo1 hhi1 hlo2 hhi2
  have hnz1 : ¬(o1.utf8ByteSize < 1) := by omega
  have hle1 : ¬(o1.utf8ByteSize > 250) := by omega
  have hnz2 : ¬(o2.utf8ByteSize < 1) := by omega
  have hle2 : ¬(o2.utf8ByteSize > 250) := by omega
  have h1 : addObservation w sender t o1 t1 =
      .ok ({ w with events := w.events ++ [⟨sender, t, o1, t1⟩] },
           [.emitClaimed sender t o1 t1]) := by
    simp [addObservation, hown, hnz1, hle1]
  have h2 : addObservation { w with events := w.events ++ [⟨sender, t, o1, t1⟩] }
      sender t o2 t2 =
      .ok ({ w with events := (w.events ++ [⟨sender, t, o1, t1⟩]) ++ [⟨sender, t, o2, t2⟩] },
           [.emitClaimed sender t o2 t2]) := by
    simp [addObservation, hown, hnz2, hle2]
  refine ⟨{ w with events := (w.events ++ [⟨sender, t, o1, t1⟩]) ++ [⟨sender, t, o2, t2⟩] },
    ?_, by simp, ?_⟩
  · simp only [addObservationTwice, h1, h2]
  · intro hnone
    rw [hfirst]
    simp only [List.append_assoc, List.singleton_append]
    rw [List.find?_append, hnone]
    simp [List.find?]

/-- C9 counterexample: in `wEx` the holder (address 77) of token 5 calls
`addObservation` twice in a row; the claim requires the second call to
fail, but both succeed. -/
theorem claim_C9_counterexample :
    errOf (addObservationTwice wEx 77 5 "first observation text"
      "second observation text" 1 2) = none := by
  rfl

/-- Witness for `claim_C9_amended` at concrete inputs: the two calls go
through and the observable text of token 5 is the first text. -/
theorem claim_C9_witness :
    errOf (addObservationTwice wEx 77 5 "lamp light on water"
      "sea glass and rust" 1 2) = none ∧
    (cacheGet (fetchObservationsFromEvents
      [⟨77, 5, "lamp light on water", 1⟩, ⟨77, 5, "sea glass and rust", 2⟩]) 5).map
      (fun e => e.observation) = some "lamp light on water" := by
  obtain ⟨w2, hok, hev, hobs⟩ := claim_C9_amended.2 wEx 77 5
    "lamp light on water" "sea glass and rust" 1 2 (by decide) (by decide)
    (by decide) (by decide) (by decide)
  constructor
  · rw [hok]
    rfl
  · have h := hobs (by decide)
    rw [hev] at h
    exact h

/-! View-agreement lemmas (C10). -/

theorem foldl_push_filter (p : Nat → Bool) (l : List Nat) :
    ∀ acc : List Nat,
    l.foldl (fun acc i => if p i then acc ++ [i] else acc) acc
      = acc ++ l.filter p := by
  induction l with
  | nil => intro acc; simp
  | cons x xs ih =>
    intro acc
    rw [List.foldl_cons, List.filter_cons]
    by_cases hp : p x
    · rw [if_pos hp, if_pos hp, ih]
      simp
    · rw [if_neg hp, if_neg hp, ih]

theorem foldl_count_filter (p : Nat → Bool) (l : List Nat) :
    ∀ c : Nat,
    l.foldl (fun c i => if p i then c + 1 else c) c
      = c + (l.filter p).length := by
  induction l with
  | nil => intro c; simp
  | cons x xs ih =>
    intro c
    rw [List.foldl_cons, List.filter_cons]
    by_cases hp : p x
    · rw [if_pos hp, if_pos hp, ih]
      simp only [List.length_cons]
      omega
    · rw [if_neg hp, if_neg hp, ih]

/-- C10.  The three availability views agree: `isTokenAvailable` returns
`false` outside [1,100] and, inside the range, returns `true` exactly when
the deposited bit is set, the claimed bit clear, and the contract is the
current custodian (a reverting `ownerOf`, modelled as `none`, makes the
view revert, which is not `true`); `getAvailableTokens` returns exactly the
ids on which `isTokenAvailable` is `true`; and `availableCount` equals the
length of that list. -/
theorem claim_C10 (w : World) :
    (∀ tokenId : Nat, tokenId = 0 ∨ 100 < tokenId →
      isTokenAvailable w tokenId = some false) ∧
    (∀ tokenId : Nat, 1 ≤ tokenId → tokenId ≤ 100 →
      (isTokenAvailable w tokenId = some true ↔
        isTokenDepositedCached w.depositedBitmapLow tokenId = true ∧
        isTokenClaimedCached w.claimedBitmapLow tokenId = false ∧
        w.owners tokenId = some w.self)) ∧
    (∀ tokenId : Nat,
      tokenId ∈ getAvailableTokens w ↔ isTokenAvailable w tokenId = some true) ∧
    availableCount w = (getAvailableTokens w).length := by
  have hiff : ∀ tokenId : Nat,
      (availTest w tokenId = true ↔ isTokenAvailable w tokenId = some true) := by
    intro t
    unfold availTest isTokenAvailable
    by_cases hrange : (t == 0 || t > 100) = true
    · rw [if_pos hrange]
      have hdep : isTokenDepositedCached w.depositedBitmapLow t = false := by
        unfold isTokenDepositedCached
        rw [if_pos hrange]
      simp [hdep]
    · rw [if_neg hrange]
      by_cases hd : (isTokenDepositedCached w.depositedBitmapLow t
          && !(isTokenClaimedCached w.claimedBitmapLow t)) = true
      · rw [if_pos hd]
        cases hown : w.owners t with
        | none => simp [hd, hown]
        | some o => simp [hd, hown]
      · rw [if_neg hd]
        constructor
        · intro hc
          rw [Bool.and_eq_true] at hc
          exact absurd hc.1 hd
        · intro hc
          cases hc
  have hlist : getAvailableTokens w = (List.range' 1 100).filter (availTest w) := by
    unfold getAvailableTokens
    rw [foldl_push_filter (availTest w) (List.range' 1 100) []]
    rfl
  refine ⟨?_, ?_, ?_, ?_⟩
  · intro t ht
    unfold isTokenAvailable
    rw [if_pos]
    simp only [Bool.or_eq_true, beq_iff_eq, decide_eq_true_eq]
    omega
  · intro t h1 h100
    rw [← hiff t]
    unfold availTest
    constructor
    · intro hc
      simp only [Bool.and_eq_true] at hc
      obtain ⟨⟨ha, hb⟩, hcown⟩ := hc
      refine ⟨ha, by simpa using hb, ?_⟩
      cases hown : w.owners t with
      | none => rw [hown] at hcown; cases hcown
      | some o =>
        rw [hown] at hcown
        simp only [beq_iff_eq] at hcown
        rw [hcown]
    · intro ⟨ha, hb, hcown⟩
      simp only [Bool.and_eq_true]
      exact ⟨⟨ha, by simp [hb]⟩, by rw [hcown]; simp⟩
  · intro t
    rw [← hiff t, hlist, List.mem_filter]
    constructor
    · intro ⟨_, hp⟩
      exact hp
    · intro hp
      refine ⟨?_, hp⟩
      rw [List.mem_range'_1]
      have hd : isTokenDepositedCached w.depositedBitmapLow t = true := by
        unfold availTest at hp
        simp only [Bool.and_eq_true] at hp
        exact hp.1.1
      unfold isTokenDepositedCached at hd
      by_cases hrange : (t == 0 || t > 100) = true
      · rw [if_pos hrange] at hd
        cases hd
      · simp only [Bool.or_eq_true, beq_iff_eq, decide_eq_true_eq] at hrange
        omega
  · unfold availableCount
    rw [foldl_count_filter (availTest w) (List.range' 1 100) 0, hlist]
    simp

/-- Witness for `claim_C10` in the state `wEx`: id 101 is unavailable, the
deposited-and-custodied token 5 is available, and the count matches the
list. -/
theorem claim_C10_witness :
    isTokenAvailable wEx 101 = some false ∧
    isTokenAvailable wEx 5 = some true ∧
    availableCount wEx = (getAvailableTokens wEx).length := by
  have h := claim_C10 wEx
  exact ⟨h.1 101 (Or.inr (by decide)),
    (h.2.1 5 (by decide) (by decide)).mpr ⟨by decide, by decide, by decide⟩,
    h.2.2.2⟩

end AfterPatmos
